import Mathlib

/-
Verification of the turn-routing / tool-execution core of the
Multimodal-Insight-Observer chat application.

The JavaScript source is shallowly embedded:

* JavaScript values that flow through the tool layer are modelled by `JVal`
  (undefined, null, booleans, numbers, strings, arrays, objects).
* JavaScript numbers are modelled by exact rationals (`ℚ`); the special value
  NaN is modelled by `Option ℚ` (`none` = NaN) at the points where the source
  produces or tests NaN (`parseFloat`, `parseInt`, `isNaN`).  Infinity and
  float rounding are outside the model and noted where relevant.
* Code that can throw a TypeError (property access on null/undefined,
  calling string methods on non-strings) is embedded in `Except RtError`.
* Host functionality that the source calls but that is not part of the
  repository (`new Date(...)`, `toLocaleDateString`, `Math.sqrt`) is passed
  in as an explicit `HostFns` record of functions.
-/

namespace MIO

/-- Model of a JavaScript value as it flows through the tool layer. -/
inductive JVal where
  | undef
  | null
  | bool (b : Bool)
  | num (q : ℚ)
  | str (s : String)
  | arr (xs : List JVal)
  | obj (fields : List (String × JVal))

/-- JavaScript truthiness.  `JVal.num` never holds NaN in this model (the
values stored in records come from JSON, which cannot encode NaN). -/
def jsTruthy : JVal → Bool
  | .undef => false
  | .null => false
  | .bool b => b
  | .num q => decide (q ≠ 0)
  | .str s => decide (s ≠ "")
  | .arr _ => true
  | .obj _ => true

/-- `a == null` in JavaScript (abstract equality with null): true exactly for
null and undefined. -/
def isNullish : JVal → Bool
  | .undef => true
  | .null => true
  | _ => false

/-- `x || y` in JavaScript: `y` when `x` is falsy, else `x`. -/
def jsOr (x y : JVal) : JVal := if jsTruthy x then x else y

/-- Strict equality of a JavaScript value with a string literal. -/
def strictEqStr (v : JVal) (s : String) : Bool :=
  match v with
  | .str t => t == s
  | _ => false

/-- ASCII lower-casing of one character; models the effect of JavaScript
`toLowerCase` (and of a case-insensitive regex) on the ASCII range.  Non-ASCII
simple case mappings are outside the model. -/
def lowerA (c : Char) : Char :=
  if c.isUpper then Char.ofNat (c.toNat + 32) else c

/-- ASCII lower-casing of a string; models JavaScript `toLowerCase`. -/
def asciiLower (s : String) : String := ⟨s.data.map lowerA⟩

/-- A word character for the purposes of the regex `\b` boundary:
`[A-Za-z0-9_]`. -/
def isWordChar (c : Char) : Bool := c.isAlpha || c.isDigit || c == '_'

/-- The JavaScript whitespace characters that matter here (ASCII whitespace
plus NBSP and the BOM); used by `trim`, by `parseFloat` and by the `\s`
class inside the field-normalisation regex. -/
def isWsChar (c : Char) : Bool :=
  c == ' ' || c == '\t' || c == '\n' || c == '\r' || c == '\x0b' || c == '\x0c' ||
    c == '\u00A0' || c == '\uFEFF'

/-- JavaScript `String.prototype.trim` on a character list. -/
def trimL (cs : List Char) : List Char :=
  ((cs.dropWhile isWsChar).reverse.dropWhile isWsChar).reverse

/-- JavaScript `String.prototype.trim`. -/
def jsTrim (s : String) : String := ⟨trimL s.data⟩

/-- Does `needle` start `hay`? -/
def startsWithL (needle hay : List Char) : Bool :=
  match needle, hay with
  | [], _ => true
  | _ :: _, [] => false
  | a :: as_, b :: bs => a == b && startsWithL as_ bs

/-- Does `needle` occur somewhere inside `hay`?  Models
`String.prototype.includes`. -/
def subListOf (needle : List Char) : List Char → Bool
  | [] => startsWithL needle []
  | c :: t => startsWithL needle (c :: t) || subListOf needle t

/-- `hay.includes(needle)` for strings. -/
def strIncludes (hay needle : String) : Bool := subListOf needle.data hay.data

/-- Numeric value of a (nonempty) list of decimal digits. -/
def natOfDigits (cs : List Char) : Nat :=
  cs.foldl (fun a c => a * 10 + (c.toNat - 48)) 0

/-- Longest leading run of decimal digits, and the rest. -/
def digitRun (cs : List Char) : List Char × List Char :=
  (cs.takeWhile (·.isDigit), cs.dropWhile (·.isDigit))

/-- Exponent part of a JavaScript decimal literal (after the `e`/`E`).
If the digits are missing the exponent is not part of the literal and the
value is unchanged, which coincides with treating it as 0. -/
def expOf (cs : List Char) : Int :=
  match cs with
  | '+' :: rest => natOfDigits (rest.takeWhile (·.isDigit))
  | '-' :: rest => -(natOfDigits (rest.takeWhile (·.isDigit)) : Int)
  | _ => natOfDigits (cs.takeWhile (·.isDigit))

/-- The unsigned decimal literal at the head of `cs`:
`digits [. digits] [e[sign]digits]`, where at least one digit must be present
before the exponent.  Returns `none` (NaN) when no literal is present.
The JavaScript literal `Infinity` has no rational value and is outside the
model (treated as NaN); none of the repository data produces it. -/
def parseUnsigned (cs : List Char) : Option ℚ :=
  let (ip, r1) := digitRun cs
  let (fp, r2) :=
    match r1 with
    | '.' :: rest => digitRun rest
    | _ => ([], r1)
  if ip.isEmpty && fp.isEmpty then none
  else
    let mantissa : ℚ := (natOfDigits ip : ℚ) + (natOfDigits fp : ℚ) / ((10 : ℚ) ^ fp.length)
    let e : Int :=
      match r2 with
      | 'e' :: rest => expOf rest
      | 'E' :: rest => expOf rest
      | _ => 0
    some (mantissa * (10 : ℚ) ^ e)

/-- JavaScript `parseFloat` on a string: skip leading whitespace, optional
sign, then the longest decimal-literal prefix; `none` models NaN. -/
def parseFloatStr (cs0 : List Char) : Option ℚ :=
  let cs := cs0.dropWhile isWsChar
  match cs with
  | '+' :: rest => parseUnsigned rest
  | '-' :: rest => (parseUnsigned rest).map (fun q => -q)
  | _ => parseUnsigned cs

/-- JavaScript `parseInt(x, 10)` on a string: skip leading whitespace,
optional sign, then a nonempty run of decimal digits; `none` models NaN. -/
def parseIntStr (cs0 : List Char) : Option Int :=
  let cs := cs0.dropWhile isWsChar
  let core : List Char → Option Nat := fun l =>
    let (d, _) := digitRun l
    if d.isEmpty then none else some (natOfDigits d)
  match cs with
  | '+' :: rest => (core rest).map (fun n => (n : Int))
  | '-' :: rest => (core rest).map (fun n => -(n : Int))
  | _ => (core cs).map (fun n => (n : Int))

/-- Decimal digits of the fractional part of `q ∈ [0, 1)`, up to `fuel`
digits.  Exact for terminating decimals within the fuel. -/
def fracDigits : Nat → ℚ → List Char
  | 0, _ => []
  | fuel + 1, q =>
    if q = 0 then []
    else
      let d := (q * 10).floor
      Char.ofNat (48 + d.toNat) :: fracDigits fuel (q * 10 - d)

/-- Decimal rendering of a JavaScript number.  Best-effort model of the JS
number-to-string conversion: exact for integers and terminating decimals of
up to 30 fractional digits, which covers every number the repository
produces from its JSON/CSV data. -/
def numToString (q : ℚ) : String :=
  let sign := if q < 0 then "-" else ""
  let a := |q|
  let ipart := toString a.floor.toNat
  let frac := a - a.floor
  if frac = 0 then sign ++ ipart
  else sign ++ ipart ++ "." ++ ⟨fracDigits 30 frac⟩

/-- JavaScript `String(v)` coercion, with a fuel bound on array nesting depth
(JS recursion on cyclic arrays throws instead; the repository only ever
stringifies flat values). -/
def jsToStringFuel : Nat → JVal → String
  | _, .undef => "undefined"
  | _, .null => "null"
  | _, .bool b => if b then "true" else "false"
  | _, .num q => numToString q
  | _, .str s => s
  | 0, .arr _ => ""
  | fuel + 1, .arr xs =>
      String.intercalate ","
        (xs.map (fun v =>
          match v with
          | .undef => ""
          | .null => ""
          | w => jsToStringFuel fuel w))
  | _, .obj _ => "[object Object]"

/-- JavaScript `String(v)` coercion. -/
def jsToString (v : JVal) : String := jsToStringFuel 1000 v

/-- JavaScript `parseFloat(v)` for an arbitrary value: the argument is
coerced to a string first (`parseFloat(undefined)` parses `"undefined"`,
numbers round-trip exactly). -/
def parseFloatJS (v : JVal) : Option ℚ :=
  match v with
  | .num q => some q
  | .str s => parseFloatStr s.data
  | .undef => none
  | .null => none
  | .bool _ => none
  | .arr xs => parseFloatStr (jsToString (.arr xs)).data
  | .obj _ => none

/-- JavaScript `parseInt(v, 10)` for an arbitrary value (string coercion
first, as for `parseFloatJS`). -/
def parseIntJS (v : JVal) : Option Int :=
  match v with
  | .num q => parseIntStr (numToString q).data
  | .str s => parseIntStr s.data
  | .arr xs => parseIntStr (jsToString (.arr xs)).data
  | _ => none

/-- A JavaScript runtime exception (the tool layer can only raise
TypeErrors: property access on null/undefined and string methods called on
non-strings). -/
inductive RtError where
  | typeError (msg : String)

/-- Property lookup by string key on a value that is known not to be
null/undefined.  Objects look up own properties (`undefined` when absent);
arrays expose their elements under canonical numeric keys and `length`;
strings expose characters and `length`; other primitives have no own
properties. -/
def jvGet (v : JVal) (key : String) : JVal :=
  let canonIdx : Option Nat :=
    if key.data ≠ [] && key.data.all (·.isDigit) && (key == "0" || key.data.headD '0' ≠ '0')
    then some (natOfDigits key.data) else none
  match v with
  | .obj fs =>
      match fs.find? (fun kv => kv.1 == key) with
      | some kv => kv.2
      | none => .undef
  | .arr xs =>
      if key == "length" then .num xs.length
      else match canonIdx with
        | some i => xs.getD i .undef
        | none => .undef
  | .str s =>
      if key == "length" then .num s.length
      else match canonIdx with
        | some i =>
            match s.data.get? i with
            | some c => .str ⟨[c]⟩
            | none => .undef
        | none => .undef
  | _ => (JVal.undef : JVal)

/-- `v?.key` — optional-chained property access: `undefined` instead of a
TypeError when the receiver is null/undefined. -/
def jvGetOpt (v : JVal) (key : String) : JVal :=
  match v with
  | .undef => .undef
  | .null => .undef
  | w => jvGet w key

/-- `v[key]` — property access with an arbitrary key value (the key is
coerced to a string, so `r[undefined]` reads property `"undefined"`);
throws a TypeError when the receiver is null/undefined. -/
def getProp (v : JVal) (key : JVal) : Except RtError JVal :=
  match v with
  | .undef => .error (.typeError "Cannot read properties of undefined")
  | .null => .error (.typeError "Cannot read properties of null")
  | w => .ok (jvGet w (jsToString key))

/-- `v.key` for a string-literal key. -/
def getPropS (v : JVal) (key : String) : Except RtError JVal :=
  getProp v (.str key)

/-- `Object.keys(v)`: own enumerable property names; throws on
null/undefined; `[]` for the other primitives; index strings for arrays and
strings. -/
def jsKeys : JVal → Except RtError (List String)
  | .undef => .error (.typeError "Cannot convert undefined or null to object")
  | .null => .error (.typeError "Cannot convert undefined or null to object")
  | .obj fs => .ok (fs.map (·.1))
  | .arr xs => .ok ((List.range xs.length).map toString)
  | .str s => .ok ((List.range s.length).map toString)
  | _ => .ok []

/-- `v.toLowerCase()`: ASCII lower-casing for strings, a TypeError for every
other value. -/
def jsToLowerStr : JVal → Except RtError String
  | .str s => .ok (asciiLower s)
  | .undef => .error (.typeError "Cannot read properties of undefined (reading toLowerCase)")
  | .null => .error (.typeError "Cannot read properties of null (reading toLowerCase)")
  | _ => .error (.typeError "toLowerCase is not a function")

/-- Separator characters stripped by the field-normalisation regex
`/[\s_-]+/g`. -/
def isSepChar (c : Char) : Bool := isWsChar c || c == '_' || c == '-'

/-- `norm` from `src/src/services/jsonTools.js`: lower-case and strip
whitespace/underscore/hyphen. -/
def normName (s : String) : String :=
  ⟨(s.data.map lowerA).filter (fun c => !isSepChar c)⟩

/-- `resolveField(rows, name)` from `src/src/services/jsonTools.js`:

    const resolveField = (rows, name) => {
      if (!rows.length || !name) return name;
      const keys = Object.keys(rows[0]);
      if (keys.includes(name)) return name;
      const norm = (s) => s.toLowerCase().replace(/[\s_-]+/g, '');
      const target = norm(name);
      return keys.find((k) => norm(k) === target) || name;
    };

`keys.includes(name)` uses strict equality, so it can only hit when `name`
is a string; `norm(name)` throws when `name` is a truthy non-string; the
final `|| name` falls back to `name` when `find` misses (undefined) or when
the found key is the empty string (falsy). -/
def resolveField (rows : List JVal) (name : JVal) : Except RtError JVal := do
  if rows.length == 0 || !jsTruthy name then return name
  let keys ← jsKeys (rows.headD .undef)
  if (match name with | .str s => keys.contains s | _ => false) then return name
  let target ←
    match name with
    | .str s => pure (normName s)
    | .undef => .error (.typeError "Cannot read properties of undefined (reading toLowerCase)")
    | .null => .error (.typeError "Cannot read properties of null (reading toLowerCase)")
    | _ => .error (.typeError "toLowerCase is not a function")
  match keys.find? (fun k => normName k == target) with
  | some k => return jsOr (.str k) name
  | none => return name

/-- The groups of the (unanchored) regex `PT(?:(\d+)H)?(?:(\d+)M)?(?:(\d+)S)?`
once the literal `PT` has matched; each optional group only consumes input
when its digit run is immediately followed by the corresponding letter
(backtracking inside a digit run can never succeed, because the character
after a shorter run is still a digit). -/
def ptGroups (cs : List Char) : Nat × Nat × Nat :=
  let (d1, r1) := digitRun cs
  let (h, after1) :=
    if !d1.isEmpty && r1.headD ' ' == 'H' then (natOfDigits d1, r1.tail) else (0, cs)
  let (d2, r2) := digitRun after1
  let (m, after2) :=
    if !d2.isEmpty && r2.headD ' ' == 'M' then (natOfDigits d2, r2.tail) else (0, after1)
  let (d3, r3) := digitRun after2
  let s := if !d3.isEmpty && r3.headD ' ' == 'S' then natOfDigits d3 else 0
  (h, m, s)

/-- `str.match(/PT(?:(\d+)H)?(?:(\d+)M)?(?:(\d+)S)?/)`: the regex matches at
the first occurrence of the literal `PT` (the groups are all optional, so
`PT` alone already matches); `none` when `PT` does not occur. -/
def ptMatch : List Char → Option (Nat × Nat × Nat)
  | [] => none
  | 'P' :: 'T' :: rest => some (ptGroups rest)
  | _ :: rest => ptMatch rest

/-- `str.match(/^(?:(\d+):)?(\d+):(\d+)$/)`: an anchored two- or three-part
colon-separated digit string; the optional leading group is empty in the
two-part form (`parseInt(m[1] || 0, 10)` then yields 0). -/
def colonMatch (cs : List Char) : Option (Nat × Nat × Nat) :=
  let (a, r1) := digitRun cs
  if a.isEmpty then none
  else
    match r1 with
    | ':' :: r2 =>
        let (b, r3) := digitRun r2
        if b.isEmpty then none
        else
          match r3 with
          | [] => some (0, natOfDigits a, natOfDigits b)
          | ':' :: r4 =>
              let (c, r5) := digitRun r4
              if c.isEmpty then none
              else if r5.isEmpty then some (natOfDigits a, natOfDigits b, natOfDigits c)
              else none
          | _ => none
    | _ => none

/-- `durationToSeconds` from `src/src/services/jsonTools.js`:

    const durationToSeconds = (val) => {
      if (val == null || val === '') return NaN;
      const n = parseFloat(val);
      if (!isNaN(n)) return n;
      const str = String(val);
      const ptMatch = str.match(/PT(?:(\d+)H)?(?:(\d+)M)?(?:(\d+)S)?/);
      if (ptMatch) { ... return h * 3600 + m * 60 + s; }
      const colonMatch = str.match(/^(?:(\d+):)?(\d+):(\d+)$/);
      if (colonMatch) { ... return h * 3600 + m * 60 + s; }
      return NaN;
    };

`none` models NaN. -/
def durationToSeconds (val : JVal) : Option ℚ :=
  if isNullish val || (match val with | .str s => s == "" | _ => false) then none
  else
    match parseFloatJS val with
    | some n => some n
    | none =>
        let str := jsToString val
        match ptMatch str.data with
        | some (h, m, s) => some ((h * 3600 + m * 60 + s : ℕ) : ℚ)
        | none =>
            match colonMatch str.data with
            | some (h, m, s) => some ((h * 3600 + m * 60 + s : ℕ) : ℚ)
            | none => none

/-- `median` from `src/src/services/jsonTools.js` (expects a sorted array;
out-of-range reads default to 0 here, while JS would produce NaN — the one
call site guarantees a nonempty array, where the indices are in range). -/
def median (sorted : List ℚ) : ℚ :=
  if sorted.length % 2 == 0 then
    (sorted.getD (sorted.length / 2 - 1) 0 + sorted.getD (sorted.length / 2) 0) / 2
  else sorted.getD (sorted.length / 2) 0

/-- Rounding to 4 decimal places; models `+n.toFixed(4)` on the exact
rational (JS rounds the underlying double to the nearest 4-decimal string;
this agrees away from representation-dependent ties). -/
def round4 (q : ℚ) : ℚ := ((round (q * 10000) : ℤ) : ℚ) / 10000

/-- `fmt` from `src/src/services/jsonTools.js`:
`(n) => (Number.isInteger(n) ? n : +n.toFixed(4))`. -/
def fmt (q : ℚ) : ℚ := if q.den == 1 then q else round4 q

/-- `Math.min(...vals)` for a nonempty list (the call site guarantees
nonemptiness; the empty default 0 is never used). -/
def jsMinList : List ℚ → ℚ
  | [] => 0
  | v :: vs => vs.foldl min v

/-- `Math.max(...vals)` for a nonempty list. -/
def jsMaxList : List ℚ → ℚ
  | [] => 0
  | v :: vs => vs.foldl max v

/-- Host functions used by the tool layer but implemented by the JS
runtime/browser, not by the repository: `dateTs v` is the numeric timestamp
`new Date(v).getTime()`, `dateLabel v` is the `toLocaleDateString` rendering
used for chart labels, and `msqrt` is `Math.sqrt`. -/
structure HostFns where
  dateTs : JVal → ℚ
  dateLabel : JVal → String
  msqrt : ℚ → ℚ

/-- `Object.keys(videos[0]).join(', ')` — the "Available: …" part of the
tool error messages. -/
def availableMsg (videos : List JVal) : Except RtError String := do
  let keys ← jsKeys (videos.headD .undef)
  pure (String.intercalate ", " keys)

/-- `r[field] ?? r.duration ?? r.duration_iso` (nullish coalescing, evaluated
left to right with short-circuiting). -/
def getDurationVal (r : JVal) (field : JVal) : Except RtError JVal := do
  let v1 ← getProp r field
  if isNullish v1 then
    let v2 ← getPropS r "duration"
    if isNullish v2 then getPropS r "duration_iso"
    else pure v2
  else pure v1

/-- Elementwise effectful map (`videos.map(...)` with a body that can throw:
the first TypeError aborts the evaluation, as in JS). -/
def mapME (f : JVal → Except RtError JVal) : List JVal → Except RtError (List JVal)
  | [] => .ok []
  | a :: l => do
      let b ← f a
      let bs ← mapME f l
      pure (b :: bs)

/-- Elementwise effectful map producing the coerced numeric values. -/
def mapMQ (f : JVal → Except RtError (Option ℚ)) : List JVal → Except RtError (List (Option ℚ))
  | [] => .ok []
  | a :: l => do
      let b ← f a
      let bs ← mapMQ f l
      pure (b :: bs)

/-- Elementwise effectful map producing the per-record chart points. -/
def mapMP (f : JVal → Except RtError (Option JVal)) :
    List JVal → Except RtError (List (Option JVal))
  | [] => .ok []
  | a :: l => do
      let b ← f a
      let bs ← mapMP f l
      pure (b :: bs)

/-- The success record of `compute_stats_json` (the switch branch in
`executeJsonTool`, `src/src/services/jsonTools.js`), built from the numeric
values that survived coercion:

      const mean = vals.reduce((a, b) => a + b, 0) / vals.length;
      const sorted = [...vals].sort((a, b) => a - b);
      const variance = vals.reduce((a, b) => a + (b - mean) ** 2, 0) / vals.length;
      return { field, count: vals.length, mean: fmt(mean), median: fmt(median(sorted)),
               std: fmt(Math.sqrt(variance)), min: Math.min(...vals), max: Math.max(...vals) };

The numeric sort comparator `(a, b) => a - b` is a stable ascending sort,
modelled by insertion sort (stable sorts of a total preorder agree).
`Math.sqrt` is the host function `host.msqrt`. -/
def statsObj (host : HostFns) (field : JVal) (vs : List ℚ) : JVal :=
  let mean : ℚ := vs.sum / (vs.length : ℚ)
  let sorted := List.insertionSort (· ≤ ·) vs
  let variance : ℚ := (vs.map (fun b => (b - mean) ^ 2)).sum / (vs.length : ℚ)
  .obj [("field", field), ("count", .num vs.length), ("mean", .num (fmt mean)),
    ("median", .num (fmt (median sorted))), ("std", .num (fmt (host.msqrt variance))),
    ("min", .num (jsMinList vs)), ("max", .num (jsMaxList vs))]

/-- The `compute_stats_json` branch of `executeJsonTool`
(`src/src/services/jsonTools.js`):

      const field = resolveField(videos, args.field);
      let vals = videos.map((r) => parseFloat(r[field]));
      if (vals.every(isNaN) && (field.toLowerCase().includes('duration') || field === 'duration_iso')) {
        vals = videos.map((r) => durationToSeconds(r[field] ?? r.duration ?? r.duration_iso));
      }
      vals = vals.filter((v) => !isNaN(v));
      if (!vals.length)
        return { error: `No numeric values in "..". Available: ..` };
      ... (statsObj)

Note that `field.toLowerCase()` is evaluated whenever every coerced value is
NaN — a TypeError when `args.field` was absent (`field` is undefined). -/
def computeStatsJson (host : HostFns) (args : JVal) (videos : List JVal) :
    Except RtError JVal := do
  let fieldArg ← getPropS args "field"
  let field ← resolveField videos fieldArg
  let vals0 ← mapMQ (fun r => do pure (parseFloatJS (← getProp r field))) videos
  let vals ←
    if vals0.all Option.isNone then do
      let fLower ← jsToLowerStr field
      if strIncludes fLower "duration" || strictEqStr field "duration_iso" then
        mapMQ (fun r => do pure (durationToSeconds (← getDurationVal r field))) videos
      else pure vals0
    else pure vals0
  let vs := vals.filterMap id
  if vs.length == 0 then do
    let avail ← availableMsg videos
    pure (.obj [("error", .str ("No numeric values in \"" ++ jsToString field ++
      "\". Available: " ++ avail))])
  else
    pure (statsObj host field vs)

/-- Field resolution of the `plot_metric_vs_time` branch:

      const metricField = resolveField(videos, args.metric_field);
      const dateField = args.date_field ? resolveField(videos, args.date_field) : 'release_date';
-/
def plotFields (args : JVal) (videos : List JVal) : Except RtError (JVal × JVal) := do
  let mfArg ← getPropS args "metric_field"
  let metricField ← resolveField videos mfArg
  let dfArg ← getPropS args "date_field"
  let dateField ←
    if jsTruthy dfArg then resolveField videos dfArg else pure (JVal.str "release_date")
  pure (metricField, dateField)

/-- One step of the `videos.map(...)` inside `plot_metric_vs_time`:

      let metricVal = parseFloat(v[metricField]);
      if (isNaN(metricVal) && (metricField.toLowerCase().includes('duration') || metricField === 'duration_iso')) {
        metricVal = durationToSeconds(v[metricField] ?? v.duration ?? v.duration_iso);
      }
      const dateVal = v[dateField];
      if (dateVal == null || (isNaN(metricVal) && metricVal !== 0)) return null;
      return { date: dateVal, label: <locale date string>, value: isNaN(metricVal) ? 0 : metricVal, title: v.title || '' };

(`metricVal !== 0` is identically true when `isNaN(metricVal)` holds, and
the `value` ternary likewise only fires in its non-NaN arm; both are kept as
written.)  The metric coercion with its duration fallback is
`plotMetricVal`; the filtering and the point record are `plotPointOf`. -/
def plotMetricVal (metricField : JVal) (v : JVal) : Except RtError (Option ℚ) := do
  let mv0 := parseFloatJS (← getProp v metricField)
  if mv0.isNone then do
    let fLower ← jsToLowerStr metricField
    if strIncludes fLower "duration" || strictEqStr metricField "duration_iso" then do
      pure (durationToSeconds (← getDurationVal v metricField))
    else pure mv0
  else pure mv0

/-- The rest of the `videos.map(...)` body: null-date / NaN-metric filtering
and the point record. -/
def plotPointOf (host : HostFns) (metricField dateField : JVal) (v : JVal) :
    Except RtError (Option JVal) := do
  let mv ← plotMetricVal metricField v
  let dateVal ← getProp v dateField
  if isNullish dateVal || (mv.isNone && !(mv == some 0)) then pure none
  else do
    let title ← getPropS v "title"
    pure (some (.obj [("date", dateVal), ("label", .str (host.dateLabel dateVal)),
      ("value", .num (match mv with | some q => q | none => 0)),
      ("title", jsOr title (.str ""))]))

/-- The chart sort order `(a, b) => new Date(a.date) - new Date(b.date)`:
ascending by host timestamp of the point's `date` field. -/
def dateLe (host : HostFns) (p q : JVal) : Prop :=
  host.dateTs (jvGetOpt p "date") ≤ host.dateTs (jvGetOpt q "date")

instance (host : HostFns) : DecidableRel (dateLe host) :=
  fun p q => inferInstanceAs
    (Decidable (host.dateTs (jvGetOpt p "date") ≤ host.dateTs (jvGetOpt q "date")))

/-- The `plot_metric_vs_time` branch of `executeJsonTool`
(`src/src/services/jsonTools.js`): build one point per record, drop the
records with an absent date or non-numeric metric, sort ascending by date
(stable JS sort, modelled by insertion sort), and fail when nothing is
left. -/
def plotMetricVsTime (host : HostFns) (args : JVal) (videos : List JVal) :
    Except RtError JVal := do
  let fields ← plotFields args videos
  let pts ← mapMP (plotPointOf host fields.1 fields.2) videos
  let data := List.insertionSort (dateLe host) (pts.filterMap id)
  if data.length == 0 then do
    let avail ← availableMsg videos
    pure (.obj [("error", .str ("Could not plot. Metric: \"" ++ jsToString fields.1 ++
      "\", date: \"" ++ jsToString fields.2 ++ "\". Available: " ++ avail))])
  else
    pure (.obj [("_chartType", .str "metricVsTime"), ("data", .arr data),
      ("metricField", fields.1), ("dateField", fields.2)])

/-- `parseInt(v.view_count, 10) || 0` — the view-count sort key. -/
def viewCountKey (v : JVal) : Except RtError Int := do
  pure ((parseIntJS (← getPropS v "view_count")).getD 0)

/-- Stable sort of key/value pairs, descending or ascending by the integer
key; models the JS stable `Array.prototype.sort` with the numeric
comparators `(a, b) => key(b) - key(a)` / `(a, b) => key(a) - key(b)`. -/
def sortKeyed (desc : Bool) (keyed : List (Int × JVal)) : List (Int × JVal) :=
  if desc then
    @List.insertionSort _ (fun a b => b.1 ≤ a.1)
      (fun a b => inferInstanceAs (Decidable (b.1 ≤ a.1))) keyed
  else
    @List.insertionSort _ (fun a b => a.1 ≤ b.1)
      (fun a b => inferInstanceAs (Decidable (a.1 ≤ b.1))) keyed

/-- `[...videos].sort((a, b) => (parseInt(b.view_count, 10) || 0) - (parseInt(a.view_count, 10) || 0))`
(and the ascending variant).  The comparator reads `view_count` from the
elements; a sort of fewer than two elements never invokes it (so a
singleton null element does not throw). -/
def sortByViews (desc : Bool) (videos : List JVal) : Except RtError (List JVal) := do
  match videos with
  | [] => pure []
  | [v] => pure [v]
  | _ => do
      let keyed ← videos.mapM (fun v => do pure ((← viewCountKey v), v))
      pure ((sortKeyed desc keyed).map (·.2))

/-- `/^(\d+)(st|nd|rd|th)?$/` together with the index extraction
`parseInt(sel.match(/\d+/)[0], 10)`: the selector is a digit run plus an
optional ordinal suffix; the extracted number is that digit run. -/
def digitOrdinal (sel : String) : Option Nat :=
  let (d, r) := digitRun sel.data
  if d.isEmpty then none
  else if r.isEmpty || r == "st".data || r == "nd".data || r == "rd".data || r == "th".data
  then some (natOfDigits d)
  else none

/-- `videos[idx]` for a possibly negative computed index. -/
def jsIndex (xs : List JVal) (i : Int) : JVal :=
  if i < 0 then .undef else xs.getD i.toNat (JVal.undef : JVal)

/-- `videos.find((v) => (v.title || '').toLowerCase().includes(sel))` —
evaluated lazily left to right, stopping at the first hit. -/
def findByTitle (sel : String) : List JVal → Except RtError (Option JVal)
  | [] => pure none
  | v :: vs => do
      let t ← getPropS v "title"
      let tl ← jsToLowerStr (jsOr t (.str ""))
      if strIncludes tl sel then pure (some v) else findByTitle sel vs

/-- The `play_video` branch of `executeJsonTool`
(`src/src/services/jsonTools.js`): resolve the selector against
most/least-viewed, then the ordinal words/digits, then a case-insensitive
title substring, in source order; produce the display-card payload or the
not-found error. -/
def playVideo (args : JVal) (videos : List JVal) : Except RtError JVal := do
  let selArg ← getPropS args "video_selector"
  let sel := jsTrim (asciiLower (jsToString (jsOr selArg (.str ""))))
  let video ←
    if sel == "most viewed" || sel == "most viewed video" then do
      pure ((← sortByViews true videos).headD .undef)
    else if sel == "least viewed" || sel == "least viewed video" then do
      pure ((← sortByViews false videos).headD .undef)
    else if sel == "first" || sel == "1st" || sel == "1" then pure (videos.getD 0 .undef)
    else if sel == "second" || sel == "2nd" || sel == "2" then pure (videos.getD 1 .undef)
    else if sel == "third" || sel == "3rd" || sel == "3" then pure (videos.getD 2 .undef)
    else
      match digitOrdinal sel with
      | some n => pure (jsIndex videos ((n : Int) - 1))
      | none => do pure ((← findByTitle sel videos).getD .undef)
  if !jsTruthy video then
    pure (.obj [("error", .str ("Video not found for \"" ++ jsToString selArg ++
      "\". Try \"first\", \"most viewed\", or a title keyword."))])
  else do
    let t ← getPropS video "title"
    let th ← getPropS video "thumbnail_url"
    let vu ← getPropS video "video_url"
    let vid ← getPropS video "video_id"
    pure (.obj [("_displayType", .str "video"), ("title", jsOr t (.str "Untitled")),
      ("thumbnail", jsOr th .null),
      ("url", jsOr vu (.str ("https://www.youtube.com/watch?v=" ++ jsToString vid)))])

/-- `executeJsonTool(toolName, args, videos)` from
`src/src/services/jsonTools.js`.  The `!Array.isArray(videos)` half of the
guard is unrepresentable here (the embedding types `videos` as a list); the
length check and the switch are as in the source, with each branch in its
own definition above. -/
def executeJsonTool (host : HostFns) (toolName : String) (args : JVal)
    (videos : List JVal) : Except RtError JVal :=
  if videos.length == 0 then
    .ok (.obj [("error",
      .str "No channel JSON data loaded. Please drag a JSON file into the chat first.")])
  else
    match toolName with
    | "compute_stats_json" => computeStatsJson host args videos
    | "plot_metric_vs_time" => plotMetricVsTime host args videos
    | "play_video" => playVideo args videos
    | _ => .ok (.obj [("error", .str ("Unknown tool: " ++ toolName))])

/-! ### The keyword regexes of `src/src/services/gemini.js` and the Chat
component

Both keyword tests have the shape `/\b(alt1|alt2|…)\b/i`, where every
alternative starts and ends with a word character and `.?` may occur in the
middle of an alternative.  They are embedded by a small matcher specialised
to this shape. -/

/-- A token of one regex alternative: a literal character (compared
case-insensitively against the lower-case pattern), or `.?` (at most one
arbitrary non-line-terminator character). -/
inductive RTok where
  | lit (c : Char)
  | anyOpt
deriving DecidableEq

/-- The tokens of a literal (lower-case) alternative. -/
def litToks (s : String) : List RTok := s.data.map RTok.lit

/-- All ways the token list can consume a prefix of `s`; returns the list of
possible remainders (`.?` branches). -/
def matchToks : List RTok → List Char → List (List Char)
  | [], s => [s]
  | RTok.lit _ :: _, [] => []
  | RTok.lit c :: ts, d :: s => if lowerA d == c then matchToks ts s else []
  | RTok.anyOpt :: ts, s =>
      matchToks ts s ++
        match s with
        | [] => []
        | d :: s2 => if d == '\n' || d == '\r' then [] else matchToks ts s2

/-- The `\b` after the group: satisfied when the match ends at the end of the
string or before a non-word character (every alternative ends in a word
character). -/
def endBoundaryOk : List Char → Bool
  | [] => true
  | d :: _ => !isWordChar d

/-- Does the alternative match at the head of `s` with `\b` boundaries on
both sides?  `prevW` records whether the character just before `s` is a word
character; every alternative starts with a word character, so the leading
`\b` amounts to `!prevW`. -/
def altAt (alt : List RTok) (prevW : Bool) (s : List Char) : Bool :=
  !prevW && (matchToks alt s).any endBoundaryOk

/-- Scan for a match of any alternative at any position. -/
def regexScan (alts : List (List RTok)) (prevW : Bool) : List Char → Bool
  | [] => false
  | c :: s => alts.any (fun a => altAt a prevW (c :: s)) || regexScan alts (isWordChar c) s

/-- `re.test(t)` for a `\b(...)\b/i` keyword regex. -/
def regexTest (alts : List (List RTok)) (t : String) : Bool :=
  regexScan alts false t.data

/-- `CODE_KEYWORDS` from `src/src/services/gemini.js`:
`/\b(plot|chart|graph|analyz|statistic|regression|correlat|histogram|visualiz|calculat|compute|run code|write code|execute|pandas|numpy|matplotlib|csv|data)\b/i`. -/
def codeKeywords : List (List RTok) :=
  [litToks "plot", litToks "chart", litToks "graph", litToks "analyz",
   litToks "statistic", litToks "regression", litToks "correlat",
   litToks "histogram", litToks "visualiz", litToks "calculat",
   litToks "compute", litToks "run code", litToks "write code",
   litToks "execute", litToks "pandas", litToks "numpy",
   litToks "matplotlib", litToks "csv", litToks "data"]

/-- `PYTHON_ONLY_KEYWORDS` from the Chat component (`handleSend`):
`/\b(regression|scatter|histogram|seaborn|matplotlib|numpy|time.?series|heatmap|box.?plot|violin|distribut|linear.?model|logistic|forecast|trend.?line)\b/i`. -/
def pythonOnlyKeywords : List (List RTok) :=
  [litToks "regression", litToks "scatter", litToks "histogram",
   litToks "seaborn", litToks "matplotlib", litToks "numpy",
   litToks "time" ++ [RTok.anyOpt] ++ litToks "series",
   litToks "heatmap",
   litToks "box" ++ [RTok.anyOpt] ++ litToks "plot",
   litToks "violin", litToks "distribut",
   litToks "linear" ++ [RTok.anyOpt] ++ litToks "model",
   litToks "logistic", litToks "forecast",
   litToks "trend" ++ [RTok.anyOpt] ++ litToks "line"]

/-! ### Routing (`handleSend` in the Chat component) -/

/-- The state `handleSend` consults when routing a turn: the trimmed message
text, whether parsed CSV rows are installed in the session
(`sessionCsvRows`), whether a CSV attachment chip was captured this turn
(`capturedCsv = csvContext`), and whether JSON records are installed
(`sessionJsonData`).  The three attachment flags model JS truthiness of the
corresponding state variables (non-null; note that even an empty array is
truthy). -/
structure TurnState where
  text : String
  sessionCsvRows : Bool
  capturedCsv : Bool
  sessionJsonData : Bool

/-- The four execution modes a turn can be dispatched to. -/
inductive RouteMode where
  | jsonTools
  | csvTools
  | codeExec
  | search
deriving DecidableEq

/-- `const wantPythonOnly = PYTHON_ONLY_KEYWORDS.test(text)`. -/
def wantPythonOnly (s : TurnState) : Bool := regexTest pythonOnlyKeywords s.text

/-- `const wantCode = CODE_KEYWORDS.test(text) && !sessionCsvRows`. -/
def wantCode (s : TurnState) : Bool := regexTest codeKeywords s.text && !s.sessionCsvRows

/-- `const useJsonTools = !!sessionJsonData && !wantCode`. -/
def useJsonTools (s : TurnState) : Bool := s.sessionJsonData && !wantCode s

/-- `const useTools = !!sessionCsvRows && !wantPythonOnly && !wantCode && !capturedCsv && !useJsonTools`. -/
def useTools (s : TurnState) : Bool :=
  s.sessionCsvRows && !wantPythonOnly s && !wantCode s && !s.capturedCsv && !useJsonTools s

/-- `const useCodeExecution = wantPythonOnly || (wantCode && !useJsonTools)`. -/
def useCodeExecution (s : TurnState) : Bool :=
  wantPythonOnly s || (wantCode s && !useJsonTools s)

/-- The dispatch order of `handleSend`: `if (useJsonTools) … else if
(useTools) … else` stream with `useCodeExecution` selecting server-side code
execution inside the streaming path (otherwise search). -/
def routeMode (s : TurnState) : RouteMode :=
  if useJsonTools s then .jsonTools
  else if useTools s then .csvTools
  else if useCodeExecution s then .codeExec
  else .search

/-! ### Tool-schema normalisation (`src/src/services/gemini.js`) -/

/-- Lookup of an object field by key (first occurrence). -/
def jlookup (fs : List (String × JVal)) (key : String) : Option JVal :=
  (fs.find? (fun kv => kv.1 == key)).map (·.2)

/-- The sequential `if (v.type === 'STRING') v.type = 'string'; …` chain of
`normalizeProp`: once a token has been rewritten to lower case, the later
comparisons cannot fire again, so the chain is an else-chain. -/
def typeTokenMap (v : JVal) : JVal :=
  if strictEqStr v "STRING" then .str "string"
  else if strictEqStr v "NUMBER" then .str "number"
  else if strictEqStr v "BOOLEAN" then .str "boolean"
  else if strictEqStr v "ARRAY" then .str "array"
  else if strictEqStr v "OBJECT" then .str "object"
  else v

/-- The per-entry effect of `normalizeProp` on a copied property schema:
rewrite the value of the `type` entry through `typeTokenMap`. -/
def propTypeEntryMap (kv : String × JVal) : String × JVal :=
  if kv.1 == "type" then (kv.1, typeTokenMap kv.2) else kv

/-- `normalizeProp` from `src/src/services/gemini.js`: copy the property
schema and lower-case its `type` token.  Spreading a non-object primitive
yields an object with no own enumerable properties (the string corner case
does not occur: the catalogs only contain object-valued properties). -/
def normalizeProp (prop : JVal) : JVal :=
  match prop with
  | .obj fs => .obj (fs.map propTypeEntryMap)
  | _ => .obj []

/-- `Object.fromEntries(Object.entries(p.properties).map(([k, v]) => [k, normalizeProp(v)]))`.
`Object.entries` of a truthy non-object primitive has no entries (again
excepting strings, which do not occur as a `properties` value). -/
def mapProperties (pv : JVal) : JVal :=
  match pv with
  | .obj gs => .obj (gs.map (fun kv => (kv.1, normalizeProp kv.2)))
  | _ => .obj []

/-- `if (p.type === 'OBJECT') p.type = 'object'` applied to one entry of the
copied field list. -/
def typeEntryMap (kv : String × JVal) : String × JVal :=
  if kv.1 == "type" && strictEqStr kv.2 "OBJECT" then (kv.1, JVal.str "object") else kv

/-- Replacement of a `properties` entry by its normalised form
(`p.properties = Object.fromEntries(...)`). -/
def propsEntryMap (kv : String × JVal) : String × JVal :=
  if kv.1 == "properties" then (kv.1, mapProperties kv.2) else kv

/-- `normalizeParams` from `src/src/services/gemini.js`:

    function normalizeParams(params) {
      const p = { ...params };
      if (p.type === 'OBJECT') p.type = 'object';
      if (p.properties) {
        p.properties = Object.fromEntries(
          Object.entries(p.properties).map(([k, v]) => [k, normalizeProp(v)])
        );
      }
      return p;
    }

Assignment to an existing key keeps its position; `p.type = 'object'` only
fires when the key is present (its value must be `'OBJECT'`), so the field
list is rewritten in place.  The per-entry rewrite of the `type` assignment
is `typeEntryMap`, of the `properties` assignment `propsEntryMap`. -/
def normalizeParams (params : JVal) : JVal :=
  match params with
  | .obj fs =>
      let fs1 := fs.map typeEntryMap
      match jlookup fs1 "properties" with
      | some pv => if jsTruthy pv then .obj (fs1.map propsEntryMap) else .obj fs1
      | none => .obj fs1
  | _ => .obj []

/-! ### The tool-call loops (`src/src/services/gemini.js`)

The loops in `chatWithCsvToolsOpenAI` (round ceiling 5) and
`chatWithJsonToolsGemini` (round ceiling 8) are embedded with the provider
as an explicit function from the conversation sent so far to the next
response.  `JSON.parse` of the provider's argument string is modelled by the
arguments already arriving as a structured value, and the (possibly
asynchronous, awaited) executor as a total function.  A `rounds` component
counts the loop iterations that re-invoked the provider; it instruments the
embedding and corresponds to the `round` counter of the `for` loop. -/

/-- One tool call requested by the chat-completions provider. -/
structure OAIToolCall where
  id : String
  name : String
  args : JVal

/-- A message of the chat-completions conversation. -/
inductive ChatMsg where
  | system (text : String)
  | user (text : String)
  | assistant (content : Option String) (tool_calls : List OAIToolCall)
  | tool (tool_call_id : String) (content : String)

/-- The provider message inspected by the loop
(`response.choices?.[0]?.message`); an absent message behaves like one with
no tool calls. -/
structure OAIMessage where
  content : Option String
  tool_calls : List OAIToolCall

/-- One recorded `{name, args, result}` triple. -/
structure ToolCallRec where
  name : String
  args : JVal
  result : JVal

/-- `JSON.stringify` (string escaping elided; object/array nesting bounded
by fuel; a top-level `undefined` — which JSON.stringify leaves undefined —
is rendered as `null`, a corner no theorem depends on: the serialisation
only feeds the provider argument). -/
def jsonStringifyFuel : Nat → JVal → String
  | _, .undef => "null"
  | _, .null => "null"
  | _, .bool b => if b then "true" else "false"
  | _, .num q => numToString q
  | _, .str s => "\"" ++ s ++ "\""
  | 0, .arr _ => ""
  | 0, .obj _ => ""
  | fuel + 1, .arr xs =>
      "[" ++ String.intercalate "," (xs.map (jsonStringifyFuel fuel)) ++ "]"
  | fuel + 1, .obj fs =>
      "\x7b" ++
        String.intercalate ","
          (fs.map (fun kv => "\"" ++ kv.1 ++ "\":" ++ jsonStringifyFuel fuel kv.2)) ++
        "\x7d"

/-- `JSON.stringify(toolResult)`. -/
def jsonStringify (v : JVal) : String := jsonStringifyFuel 1000 v

/-- `msg.content || null`. -/
def contentOrNull (c : Option String) : Option String :=
  match c with
  | some s => if s == "" then none else some s
  | none => none

/-- The `for (const tc of msg.tool_calls)` body: execute each call, record
the `{name, args, result}` triple in call order, collect chart-tagged
results, and build the `role: 'tool'` reply messages. -/
def execCallsOAI (executeFn : String → JVal → JVal) :
    List OAIToolCall → List ToolCallRec × List JVal × List ChatMsg
  | [] => ([], [], [])
  | tc :: rest =>
      let toolResult := executeFn tc.name tc.args
      let r := execCallsOAI executeFn rest
      (⟨tc.name, tc.args, toolResult⟩ :: r.1,
       (if jsTruthy (jvGetOpt toolResult "_chartType") then [toolResult] else []) ++ r.2.1,
       ChatMsg.tool tc.id (jsonStringify toolResult) :: r.2.2)

/-- The `for (let round = 0; round < 5; round++)` loop of
`chatWithCsvToolsOpenAI`: stop when the response carries no tool calls;
otherwise execute the calls, rebuild `messagesWithAssistant` from the
original `messages` (the source copies `[...messages]` afresh each round),
ask the provider again and continue with one unit of fuel less. -/
def csvToolsRounds (provider : List ChatMsg → OAIMessage)
    (executeFn : String → JVal → JVal) (messages : List ChatMsg) :
    Nat → OAIMessage → List JVal → List ToolCallRec → Nat →
      OAIMessage × List JVal × List ToolCallRec × Nat
  | 0, resp, charts, calls, used => (resp, charts, calls, used)
  | fuel + 1, resp, charts, calls, used =>
      if resp.tool_calls.isEmpty then (resp, charts, calls, used)
      else
        let r := execCallsOAI executeFn resp.tool_calls
        let messagesWithAssistant :=
          messages ++ [ChatMsg.assistant (contentOrNull resp.content) resp.tool_calls] ++ r.2.2
        csvToolsRounds provider executeFn messages fuel (provider messagesWithAssistant)
          (charts ++ r.2.1) (calls ++ r.1) (used + 1)

/-- The `{text, charts, toolCalls}` record returned by the CSV tool chat
(plus the instrumentation counter). -/
structure CsvToolsResult where
  text : String
  charts : List JVal
  toolCalls : List ToolCallRec
  rounds : Nat

/-- `chatWithCsvToolsOpenAI` from `src/src/services/gemini.js`, starting
from the already-built message list: initial provider call, at most five
tool rounds, then `text = response.choices?.[0]?.message?.content || ''`. -/
def chatWithCsvToolsOpenAI (provider : List ChatMsg → OAIMessage)
    (executeFn : String → JVal → JVal) (messages : List ChatMsg) : CsvToolsResult :=
  let r := csvToolsRounds provider executeFn messages 5 (provider messages) [] [] 0
  { text := r.1.content.getD "", charts := r.2.1, toolCalls := r.2.2.1, rounds := r.2.2.2 }

/-- One part of a contents-style provider response. -/
structure GemPart where
  text : Option String
  functionCall : Option (String × JVal)

/-- What the loop sends to the contents-style chat: the user message, then
function responses. -/
inductive GemInput where
  | textMsg (s : String)
  | functionResponse (name : String) (result : JVal)

/-- A contents-style provider response: its parts and the value of
`response.text()`. -/
structure GemResponse where
  parts : List GemPart
  textValue : String

/-- The `{text, charts, toolCalls, generatedImages}` record returned by the
JSON tool chat (plus the instrumentation counter). -/
structure JsonToolsResult where
  text : String
  charts : List JVal
  toolCalls : List ToolCallRec
  generatedImages : List JVal
  rounds : Nat

/-- `const funcCall = parts.find((p) => p.functionCall); if (!funcCall) break;
const { name, args } = funcCall.functionCall;` — the tool call of a
response, when one is present. -/
def findCall (resp : GemResponse) : Option (String × JVal) :=
  (resp.parts.find? (fun p => p.functionCall.isSome)).bind (·.functionCall)

/-- The `for (let round = 0; round < 8; round++)` loop of
`chatWithJsonToolsGemini`: find the first part with a `functionCall`
(`break` when none), execute it (awaiting an asynchronous executor), record
the triple, collect chart-tagged and generated-image results, send the
function response back and continue. -/
def jsonToolsRoundsGemini (provider : List GemInput → GemResponse)
    (executeFn : String → JVal → JVal) :
    Nat → List GemInput → GemResponse → List JVal → List ToolCallRec → List JVal → Nat →
      GemResponse × List JVal × List ToolCallRec × List JVal × Nat
  | 0, _, resp, charts, calls, imgs, used => (resp, charts, calls, imgs, used)
  | fuel + 1, sent, resp, charts, calls, imgs, used =>
      match findCall resp with
      | none => (resp, charts, calls, imgs, used)
      | some (name, args) =>
          let toolResult := executeFn name args
          let charts2 :=
            charts ++ (if jsTruthy (jvGetOpt toolResult "_chartType") then [toolResult] else [])
          let imgs2 :=
            imgs ++ (if strictEqStr (jvGetOpt toolResult "_imageType") "generated" &&
                        jsTruthy (jvGetOpt toolResult "data") then [toolResult] else [])
          let sent2 := sent ++ [GemInput.functionResponse name toolResult]
          jsonToolsRoundsGemini provider executeFn fuel sent2 (provider sent2)
            charts2 (calls ++ [⟨name, args, toolResult⟩]) imgs2 (used + 1)

/-- `chatWithJsonToolsGemini` from `src/src/services/gemini.js`, starting
from the already-built context message: initial `sendMessage`, at most eight
tool rounds, then `text = response.text()`. -/
def chatWithJsonToolsGemini (provider : List GemInput → GemResponse)
    (executeFn : String → JVal → JVal) (firstMessage : String) : JsonToolsResult :=
  let sent0 := [GemInput.textMsg firstMessage]
  let r := jsonToolsRoundsGemini provider executeFn 8 sent0 (provider sent0) [] [] [] 0
  { text := r.1.textValue, charts := r.2.1, toolCalls := r.2.2.1,
    generatedImages := r.2.2.2.1, rounds := r.2.2.2.2 }

/-! ### Bulk CSV transport (`parseCSV` / `toBase64` in the Chat component)

`toBase64` runs `TextEncoder().encode` (UTF-8) over the text and `btoa` over
the resulting byte string.  Strings are modelled as sequences of Unicode
scalar values, so `text.length` and `text.slice` count characters; the
UTF-16 code-unit artefacts of JS strings (lone surrogates created by slicing
inside a surrogate pair) are outside the model. -/

/-- UTF-8 encoding of one scalar value (what `TextEncoder` emits per
character). -/
def utf8EncodeChar (c : Char) : List Nat :=
  let n := c.toNat
  if n < 128 then [n]
  else if n < 2048 then [192 + n / 64, 128 + n % 64]
  else if n < 65536 then [224 + n / 4096, 128 + n / 64 % 64, 128 + n % 64]
  else [240 + n / 262144, 128 + n / 4096 % 64, 128 + n / 64 % 64, 128 + n % 64]

/-- UTF-8 encoding of a character sequence (`TextEncoder().encode`). -/
def utf8Encode : List Char → List Nat
  | [] => []
  | c :: cs => utf8EncodeChar c ++ utf8Encode cs

/-- UTF-8 decoding back to scalar values (the decode step of the recipe the
prompt embeds for the code-execution environment); fuel-based recursion, one
unit of fuel per decoded scalar, so a byte of fuel per input byte always
suffices. -/
def utf8DecodeFuel : Nat → List Nat → List Nat
  | 0, _ => []
  | fuel + 1, l =>
      match l with
      | [] => []
      | b :: bs =>
          if b < 128 then b :: utf8DecodeFuel fuel bs
          else if b < 224 then
            match bs with
            | b2 :: bs2 => ((b - 192) * 64 + (b2 - 128)) :: utf8DecodeFuel fuel bs2
            | [] => []
          else if b < 240 then
            match bs with
            | b2 :: b3 :: bs3 =>
                ((b - 224) * 4096 + (b2 - 128) * 64 + (b3 - 128)) :: utf8DecodeFuel fuel bs3
            | _ => []
          else
            match bs with
            | b2 :: b3 :: b4 :: bs4 =>
                ((b - 240) * 262144 + (b2 - 128) * 4096 + (b3 - 128) * 64 + (b4 - 128)) ::
                  utf8DecodeFuel fuel bs4
            | _ => []

/-- UTF-8 decoding of a byte sequence. -/
def utf8Decode (l : List Nat) : List Nat := utf8DecodeFuel l.length l

/-- The base64 alphabet. -/
def b64Table : List Char :=
  "ABCDEFGHIJKLMNOPQRSTUVWXYZabcdefghijklmnopqrstuvwxyz0123456789+/".data

/-- Character for a sextet value. -/
def b64Char (n : Nat) : Char := b64Table.getD n '='

/-- Sextet value of a base64 character. -/
def b64Index (c : Char) : Nat := b64Table.findIdx (· == c)

/-- `btoa` over a byte sequence: three bytes become four sextet characters,
with `=` padding for a short final group. -/
def btoaBytes : List Nat → List Char
  | [] => []
  | [b1] => [b64Char (b1 / 4), b64Char (b1 % 4 * 16), '=', '=']
  | [b1, b2] => [b64Char (b1 / 4), b64Char (b1 % 4 * 16 + b2 / 16), b64Char (b2 % 16 * 4), '=']
  | b1 :: b2 :: b3 :: rest =>
      b64Char (b1 / 4) :: b64Char (b1 % 4 * 16 + b2 / 16) ::
        b64Char (b2 % 16 * 4 + b3 / 64) :: b64Char (b3 % 64) :: btoaBytes rest

/-- base64 decoding (`atob`) back to bytes. -/
def atobBytes : List Char → List Nat
  | c1 :: c2 :: c3 :: c4 :: rest =>
      let n1 := b64Index c1
      let n2 := b64Index c2
      if c3 == '=' then [n1 * 4 + n2 / 16]
      else
        let n3 := b64Index c3
        if c4 == '=' then [n1 * 4 + n2 / 16, n2 % 16 * 16 + n3 / 4]
        else
          (n1 * 4 + n2 / 16) :: (n2 % 16 * 16 + n3 / 4) :: (n3 % 4 * 64 + b64Index c4) ::
            atobBytes rest
  | _ => []

/-- `toBase64` from the Chat component:

    const toBase64 = (str) => {
      const bytes = new TextEncoder().encode(str);
      let binary = '';
      for (let i = 0; i < bytes.length; i++) binary += String.fromCharCode(bytes[i]);
      return btoa(binary);
    };
-/
def toBase64 (cs : List Char) : String := ⟨btoaBytes (utf8Encode cs)⟩

/-- The record produced by `parseCSV`. -/
structure ParsedCsv where
  headers : List String
  rowCount : Nat
  preview : String
  base64 : String
  truncated : Bool

/-- `text.split('\n')` (and `split(',')`): split at every separator, keeping
empty segments. -/
def splitOn (sep : Char) : List Char → List (List Char)
  | [] => [[]]
  | c :: rest =>
      let r := splitOn sep rest
      if c == sep then [] :: r
      else
        match r with
        | l :: ls => (c :: l) :: ls
        | [] => [[c]]

/-- `.replace(/^"|"$/g, '')`: strip one leading and one trailing double
quote, each if present. -/
def stripOuterQuotes (cs : List Char) : List Char :=
  let cs1 := match cs with
    | '"' :: rest => rest
    | other => other
  match cs1.getLast? with
  | some '"' => cs1.dropLast
  | _ => cs1

/-- `parseCSV` from the Chat component:

    const parseCSV = (text) => {
      const lines = text.split('\n').filter((l) => l.trim());
      if (!lines.length) return null;
      const headers = lines[0].split(',').map((h) => h.trim().replace(/^"|"$/g, ''));
      const rowCount = lines.length - 1;
      const preview = lines.slice(0, 6).join('\n');
      const raw = text.length > 500000 ? text.slice(0, 500000) : text;
      const base64 = toBase64(raw);
      const truncated = text.length > 500000;
      return { headers, rowCount, preview, base64, truncated };
    };
-/
def parseCSV (text : String) : Option ParsedCsv :=
  let lines := (splitOn '\n' text.data).filter (fun l => !(trimL l).isEmpty)
  if lines.isEmpty then none
  else
    let headers := (splitOn ',' (lines.headD [])).map
      (fun h => (⟨stripOuterQuotes (trimL h)⟩ : String))
    let rowCount := lines.length - 1
    let preview := String.intercalate "\n" (lines.take 6 |>.map (fun l => (⟨l⟩ : String)))
    let raw := if text.length > 500000 then text.data.take 500000 else text.data
    some { headers := headers, rowCount := rowCount, preview := preview,
           base64 := toBase64 raw, truncated := decide (text.length > 500000) }

/-! ## Supporting lemmas for the keyword regexes -/

/-- A character whose ASCII lower-casing is a word character is itself a
word character. -/
theorem isWordChar_of_lowerA {c d : Char} (h : lowerA c = d) (hd : isWordChar d = true) :
    isWordChar c = true := by
  unfold lowerA at h
  split at h
  · next hu => simp [isWordChar, Char.isAlpha, hu]
  · subst h; exact hd

/-- A purely literal alternative consumes exactly its case-folded image. -/
theorem matchToks_litToks : ∀ (ws mid post : List Char), mid.map lowerA = ws →
    matchToks (ws.map RTok.lit) (mid ++ post) = [post]
  | [], [], _, _ => rfl
  | [], _ :: _, _, h => by simp at h
  | _ :: _, [], _, h => by simp at h
  | wc :: ws, m :: mid, post, h => by
      simp only [List.map_cons, List.cons.injEq] at h
      simp only [List.map_cons, List.cons_append, matchToks, h.1, beq_self_eq_true, if_pos]
      exact matchToks_litToks ws mid post h.2

/-- The word-character status of the character immediately before the suffix
that remains after consuming `pre`, starting from status `prevW` at the far
left. -/
def prevAfter (prevW : Bool) (pre : List Char) : Bool :=
  match pre.getLast? with
  | none => prevW
  | some c => isWordChar c

/-- If some listed alternative matches (with boundaries) at the start of
`s`, the scan over `pre ++ s` succeeds. -/
theorem regexScan_append (alts : List (List RTok)) (alt : List RTok) :
    ∀ (pre : List Char) (prevW : Bool) (s : List Char),
      alt ∈ alts → s ≠ [] → altAt alt (prevAfter prevW pre) s = true →
      regexScan alts prevW (pre ++ s) = true
  | [], prevW, s, hmem, hne, halt => by
      match s, hne with
      | c :: s1, _ =>
        simp only [List.nil_append, regexScan, Bool.or_eq_true]
        left
        rw [List.any_eq_true]
        exact ⟨alt, hmem, halt⟩
  | p :: pre, prevW, s, hmem, hne, halt => by
      have hpa : prevAfter (isWordChar p) pre = prevAfter prevW (p :: pre) := by
        cases pre with
        | nil => rfl
        | cons q l =>
            cases hgl : (q :: l).getLast? with
            | none => simp at hgl
            | some c => simp [prevAfter, List.getLast?_cons_cons, hgl]
      have ih := regexScan_append alts alt pre (isWordChar p) s hmem hne (by rw [hpa]; exact halt)
      simp only [List.cons_append, regexScan, Bool.or_eq_true]
      right
      exact ih

/-- No word character just before the match position. -/
def noWordBefore (pre : List Char) : Bool :=
  match pre.getLast? with
  | none => true
  | some c => !isWordChar c

/-- No word character just after the match. -/
def noWordAfter (post : List Char) : Bool :=
  match post.head? with
  | none => true
  | some c => !isWordChar c

/-- The claim-level hypothesis "the message text contains the word `w`":
`w` occurs in `t` up to ASCII case, delimited on both sides by the start/end
of the text or a non-word character. -/
def containsWordCI (w t : String) : Prop :=
  ∃ pre mid post, t.data = pre ++ (mid ++ post) ∧ mid.map lowerA = w.data ∧
    noWordBefore pre = true ∧ noWordAfter post = true

/-- A keyword regex accepts every text containing one of its literal
alternatives as a delimited word. -/
theorem regexTest_of_containsWordCI (alts : List (List RTok)) (w t : String)
    (hmem : litToks w ∈ alts) (hw : w.data ≠ [])
    (h : containsWordCI w t) : regexTest alts t = true := by
  obtain ⟨pre, mid, post, hsplit, hmap, hb, ha⟩ := h
  have hmidne : mid ≠ [] := by
    intro h0
    rw [h0] at hmap
    exact hw (by simpa using hmap.symm)
  unfold regexTest
  rw [hsplit]
  apply regexScan_append alts (litToks w) pre false (mid ++ post) hmem
    (by cases mid with | nil => exact absurd rfl hmidne | cons a l => simp)
  have hpa : prevAfter false pre = false := by
    unfold prevAfter
    unfold noWordBefore at hb
    cases hl : pre.getLast? with
    | none => rfl
    | some c => rw [hl] at hb; simpa using hb
  rw [hpa]
  unfold altAt
  simp only [Bool.not_false, Bool.true_and]
  have : litToks w = w.data.map RTok.lit := rfl
  rw [this, matchToks_litToks w.data mid post hmap]
  simp only [List.any_cons, List.any_nil, Bool.or_false]
  unfold endBoundaryOk
  unfold noWordAfter at ha
  cases post with
  | nil => rfl
  | cons c l => simpa using ha

/-! ## C1 — routing decision per turn -/

/-- C1 counterexample: with tabular rows installed from a prior turn, no
fresh CSV chip and no structured-record context, the text `"heatmap"`
matches no code-intent keyword (`CODE_KEYWORDS`), yet the turn is routed to
code-execution mode rather than tabular tool mode, because `"heatmap"` is in
the Python-only plotting keyword set consulted first. -/
theorem c1_counterexample :
    regexTest codeKeywords "heatmap" = false ∧
    regexTest pythonOnlyKeywords "heatmap" = true ∧
    routeMode ⟨"heatmap", true, false, false⟩ = RouteMode.codeExec ∧
    routeMode ⟨"heatmap", true, false, false⟩ ≠ RouteMode.csvTools :=
  ⟨by decide, by decide, by decide, by decide⟩

/-- C1 (amended): (1) a turn whose text contains the word "histogram" is
routed to code-execution mode whenever at most one attachment context is
active, regardless of which (if any) is loaded; (2) a turn with a tabular
context active from a prior turn (no same-turn fresh CSV drop), no
structured-record context, and text matching neither a code-intent keyword
nor a Python-only plotting keyword (such as "heatmap") is routed to tabular
tool mode. -/
theorem c1_routing :
    (∀ s : TurnState, containsWordCI "histogram" s.text →
        ((s.sessionCsvRows || s.capturedCsv) && s.sessionJsonData) = false →
        routeMode s = RouteMode.codeExec) ∧
    (∀ s : TurnState, s.sessionCsvRows = true → s.capturedCsv = false →
        s.sessionJsonData = false → regexTest codeKeywords s.text = false →
        regexTest pythonOnlyKeywords s.text = false →
        routeMode s = RouteMode.csvTools) := by
  constructor
  · rintro ⟨text, csv, cap, json⟩ hw hx
    have hpy : regexTest pythonOnlyKeywords text = true :=
      regexTest_of_containsWordCI _ _ _ (by decide) (by decide) hw
    have hcode : regexTest codeKeywords text = true :=
      regexTest_of_containsWordCI _ _ _ (by decide) (by decide) hw
    cases csv <;> cases cap <;> cases json <;>
      simp_all [routeMode, useJsonTools, useTools, useCodeExecution, wantCode, wantPythonOnly]
  · rintro ⟨text, csv, cap, json⟩ h1 h2 h3 h4 h5
    simp only at h1 h2 h3
    subst h1; subst h2; subst h3
    simp [routeMode, useJsonTools, useTools, useCodeExecution, wantCode, wantPythonOnly, h4, h5]

/-- C1 witness: a turn saying "please draw a histogram" with only a JSON
context goes to code execution; a turn saying "whats the average views" over
a session CSV goes to the tabular tools. -/
theorem c1_routing_witness :
    routeMode ⟨"please draw a histogram", false, false, true⟩ = RouteMode.codeExec ∧
    routeMode ⟨"whats the average views", true, false, false⟩ = RouteMode.csvTools := by
  constructor
  · exact c1_routing.1 ⟨"please draw a histogram", false, false, true⟩
      ⟨"please draw a ".data, "histogram".data, [], by decide, by decide, by decide, by decide⟩
      (by decide)
  · exact c1_routing.2 ⟨"whats the average views", true, false, false⟩ rfl rfl rfl
      (by decide) (by decide)

/-! ## C2 — the tool-call loops stop at their round ceilings -/

/-- One recorded triple per requested call in a round. -/
theorem execCallsOAI_length (executeFn : String → JVal → JVal) :
    ∀ tcs : List OAIToolCall, (execCallsOAI executeFn tcs).1.length = tcs.length
  | [] => rfl
  | _ :: rest => by
      simp only [execCallsOAI, List.length_cons]
      rw [execCallsOAI_length executeFn rest]

/-- The CSV loop performs at most `fuel` further rounds. -/
theorem csvToolsRounds_rounds_le (provider : List ChatMsg → OAIMessage)
    (executeFn : String → JVal → JVal) (messages : List ChatMsg) :
    ∀ (fuel : Nat) (resp : OAIMessage) (charts : List JVal) (calls : List ToolCallRec)
      (used : Nat),
      (csvToolsRounds provider executeFn messages fuel resp charts calls used).2.2.2 ≤
        used + fuel
  | 0, resp, charts, calls, used => Nat.le_add_right used 0
  | fuel + 1, resp, charts, calls, used => by
      unfold csvToolsRounds
      split
      · exact Nat.le_add_right used (fuel + 1)
      · exact (csvToolsRounds_rounds_le provider executeFn messages fuel _ _ _ (used + 1)).trans
          (by omega)

/-- Against a provider that requests a tool call on every round, the CSV
loop uses exactly its remaining fuel and accumulates at least one recorded
call per round. -/
theorem csvToolsRounds_exhaust (provider : List ChatMsg → OAIMessage)
    (executeFn : String → JVal → JVal) (messages : List ChatMsg)
    (hp : ∀ ms, (provider ms).tool_calls ≠ []) :
    ∀ (fuel : Nat) (resp : OAIMessage) (charts : List JVal) (calls : List ToolCallRec)
      (used : Nat), resp.tool_calls ≠ [] →
      (csvToolsRounds provider executeFn messages fuel resp charts calls used).2.2.2 =
          used + fuel ∧
        calls.length + fuel ≤
          (csvToolsRounds provider executeFn messages fuel resp charts calls used).2.2.1.length
  | 0, resp, charts, calls, used, _ => ⟨rfl, Nat.le_refl _⟩
  | fuel + 1, resp, charts, calls, used, hresp => by
      unfold csvToolsRounds
      rw [if_neg (by simpa [List.isEmpty_iff] using hresp)]
      have ih := csvToolsRounds_exhaust provider executeFn messages hp fuel
        (provider (messages ++ [ChatMsg.assistant (contentOrNull resp.content) resp.tool_calls] ++
          (execCallsOAI executeFn resp.tool_calls).2.2))
        (charts ++ (execCallsOAI executeFn resp.tool_calls).2.1)
        (calls ++ (execCallsOAI executeFn resp.tool_calls).1) (used + 1) (hp _)
      refine ⟨by rw [ih.1]; omega, le_trans ?_ ih.2⟩
      have hlen : (execCallsOAI executeFn resp.tool_calls).1.length = resp.tool_calls.length :=
        execCallsOAI_length executeFn resp.tool_calls
      have hpos : 1 ≤ resp.tool_calls.length := by
        cases h : resp.tool_calls with
        | nil => exact absurd h hresp
        | cons a l => simp
      simp only [List.length_append, hlen]
      omega

/-- The JSON loop performs at most `fuel` further rounds. -/
theorem jsonToolsRounds_rounds_le (provider : List GemInput → GemResponse)
    (executeFn : String → JVal → JVal) :
    ∀ (fuel : Nat) (sent : List GemInput) (resp : GemResponse) (charts : List JVal)
      (calls : List ToolCallRec) (imgs : List JVal) (used : Nat),
      (jsonToolsRoundsGemini provider executeFn fuel sent resp charts calls imgs used).2.2.2.2 ≤
        used + fuel
  | 0, _, resp, charts, calls, imgs, used => Nat.le_add_right used 0
  | fuel + 1, sent, resp, charts, calls, imgs, used => by
      unfold jsonToolsRoundsGemini
      split
      · exact Nat.le_add_right used (fuel + 1)
      · exact (jsonToolsRounds_rounds_le provider executeFn fuel _ _ _ _ _ (used + 1)).trans
          (by omega)

/-- Against a provider that answers every message with a function call, the
JSON loop uses exactly its remaining fuel and records exactly one call per
round. -/
theorem jsonToolsRounds_exhaust (provider : List GemInput → GemResponse)
    (executeFn : String → JVal → JVal)
    (hp : ∀ sent, findCall (provider sent) ≠ none) :
    ∀ (fuel : Nat) (sent : List GemInput) (resp : GemResponse) (charts : List JVal)
      (calls : List ToolCallRec) (imgs : List JVal) (used : Nat), findCall resp ≠ none →
      (jsonToolsRoundsGemini provider executeFn fuel sent resp charts calls imgs used).2.2.2.2 =
          used + fuel ∧
        (jsonToolsRoundsGemini provider executeFn fuel sent resp charts calls imgs
            used).2.2.1.length =
          calls.length + fuel
  | 0, _, resp, charts, calls, imgs, used, _ => ⟨rfl, rfl⟩
  | fuel + 1, sent, resp, charts, calls, imgs, used, hresp => by
      unfold jsonToolsRoundsGemini
      cases hfc : findCall resp with
      | none => exact absurd hfc hresp
      | some nameArgs =>
          have ih := jsonToolsRounds_exhaust provider executeFn hp fuel
            (sent ++ [GemInput.functionResponse nameArgs.1
              (executeFn nameArgs.1 nameArgs.2)])
            (provider (sent ++ [GemInput.functionResponse nameArgs.1
              (executeFn nameArgs.1 nameArgs.2)]))
            (charts ++ (if jsTruthy (jvGetOpt (executeFn nameArgs.1 nameArgs.2) "_chartType")
              then [executeFn nameArgs.1 nameArgs.2] else []))
            (calls ++ [⟨nameArgs.1, nameArgs.2, executeFn nameArgs.1 nameArgs.2⟩])
            (imgs ++ (if strictEqStr (jvGetOpt (executeFn nameArgs.1 nameArgs.2) "_imageType")
                  "generated" && jsTruthy (jvGetOpt (executeFn nameArgs.1 nameArgs.2) "data")
              then [executeFn nameArgs.1 nameArgs.2] else []))
            (used + 1) (hp _)
          obtain ⟨name, args⟩ := nameArgs
          refine ⟨by rw [ih.1]; omega, by rw [ih.2]; simp; omega⟩

/-- C2: both tool-call loops execute at most their fixed ceiling of rounds —
5 for `chatWithCsvToolsOpenAI`, 8 for `chatWithJsonToolsGemini` — for every
provider behaviour and every executor; and against a provider that requests
a tool call on every round, each loop stops exactly at its ceiling and
returns the accumulated partial `{text, charts, toolCalls}` output (at least
one recorded call per round) instead of hanging or throwing — the embedded
loops are total functions. -/
theorem c2_round_ceiling :
    (∀ (provider : List ChatMsg → OAIMessage) (executeFn : String → JVal → JVal)
        (messages : List ChatMsg),
      (chatWithCsvToolsOpenAI provider executeFn messages).rounds ≤ 5) ∧
    (∀ (provider : List GemInput → GemResponse) (executeFn : String → JVal → JVal)
        (firstMessage : String),
      (chatWithJsonToolsGemini provider executeFn firstMessage).rounds ≤ 8) ∧
    (∀ (provider : List ChatMsg → OAIMessage) (executeFn : String → JVal → JVal)
        (messages : List ChatMsg), (∀ ms, (provider ms).tool_calls ≠ []) →
      (chatWithCsvToolsOpenAI provider executeFn messages).rounds = 5 ∧
        5 ≤ (chatWithCsvToolsOpenAI provider executeFn messages).toolCalls.length) ∧
    (∀ (provider : List GemInput → GemResponse) (executeFn : String → JVal → JVal)
        (firstMessage : String), (∀ sent, findCall (provider sent) ≠ none) →
      (chatWithJsonToolsGemini provider executeFn firstMessage).rounds = 8 ∧
        (chatWithJsonToolsGemini provider executeFn firstMessage).toolCalls.length = 8) := by
  refine ⟨?_, ?_, ?_, ?_⟩
  · intro provider executeFn messages
    exact csvToolsRounds_rounds_le provider executeFn messages 5 _ _ _ 0
  · intro provider executeFn firstMessage
    exact jsonToolsRounds_rounds_le provider executeFn 8 _ _ _ _ _ 0
  · intro provider executeFn messages hp
    have h := csvToolsRounds_exhaust provider executeFn messages hp 5
      (provider messages) [] [] 0 (hp _)
    exact ⟨h.1, h.2⟩
  · intro provider executeFn firstMessage hp
    have h := jsonToolsRounds_exhaust provider executeFn hp 8
      [GemInput.textMsg firstMessage] (provider [GemInput.textMsg firstMessage]) [] [] [] 0
      (hp _)
    exact ⟨h.1, h.2⟩

/-- A provider stub that requests one more tool call on every round. -/
def stubOAI : List ChatMsg → OAIMessage := fun _ => ⟨none, [⟨"1", "t", .obj []⟩]⟩

/-- A contents-style provider stub that answers every message with a
function call. -/
def stubGem : List GemInput → GemResponse :=
  fun _ => ⟨[⟨none, some ("t", .obj [])⟩], "partial"⟩

/-- C2 witness: against the always-tool-calling stubs, the loops stop after
exactly 5 resp. 8 rounds and return the accumulated tool-call history. -/
theorem c2_round_ceiling_witness :
    (chatWithCsvToolsOpenAI stubOAI (fun _ _ => .obj []) []).rounds = 5 ∧
    5 ≤ (chatWithCsvToolsOpenAI stubOAI (fun _ _ => .obj []) []).toolCalls.length ∧
    (chatWithJsonToolsGemini stubGem (fun _ _ => .obj []) "hello").rounds = 8 ∧
    (chatWithJsonToolsGemini stubGem (fun _ _ => .obj []) "hello").toolCalls.length = 8 := by
  have h1 := c2_round_ceiling.2.2.1 stubOAI (fun _ _ => .obj []) []
    (fun ms => by simp [stubOAI])
  have h2 := c2_round_ceiling.2.2.2 stubGem (fun _ _ => .obj []) "hello"
    (fun sent => by simp [stubGem, findCall])
  exact ⟨h1.1, h1.2, h2.1, h2.2⟩

/-! ## Concrete fixtures shared by the claim instances -/

/-- A concrete host: timestamps, labels and square roots are irrelevant to
the claims that use it. -/
def host0 : HostFns := ⟨fun _ => 0, fun _ => "", fun _ => 0⟩

/-- Records titled A/B/C with view counts 10/30/20. -/
def vidsABC : List JVal :=
  [.obj [("title", .str "A"), ("view_count", .num 10), ("thumbnail_url", .str "ta"),
     ("video_url", .str "ua")],
   .obj [("title", .str "B"), ("view_count", .num 30), ("thumbnail_url", .str "tb"),
     ("video_url", .str "ub")],
   .obj [("title", .str "C"), ("view_count", .num 20), ("thumbnail_url", .str "tc"),
     ("video_url", .str "uc")]]

/-- Records whose titles contain the selector words, to separate the
resolution priorities. -/
def vidsPrio : List JVal :=
  [.obj [("title", .str "the most viewed thing"), ("view_count", .num 5),
     ("thumbnail_url", .str "t1"), ("video_url", .str "u1")],
   .obj [("title", .str "first place"), ("view_count", .num 99),
     ("thumbnail_url", .str "t2"), ("video_url", .str "u2")]]

/-! ## C3 — executeJsonTool and user-input errors -/

/-- C3: the structured-error contract holds for an empty record array, an
unresolvable field and an unresolvable selector (each yields an `{error}`
result listing alternatives), but it is violated for a missing required
field argument: `compute_stats_json` with `args = {}` reaches
`field.toLowerCase()` with `field` undefined and throws a TypeError instead
of returning an error result. -/
theorem c3_user_input_errors :
    executeJsonTool host0 "compute_stats_json" (.obj [])
        [.obj [("view_count", .str "10")]] =
      .error (.typeError "Cannot read properties of undefined (reading toLowerCase)") ∧
    executeJsonTool host0 "plot_metric_vs_time" (.obj [])
        [.obj [("view_count", .str "10")]] =
      .error (.typeError "Cannot read properties of undefined (reading toLowerCase)") ∧
    executeJsonTool host0 "compute_stats_json" (.obj [("field", .str "v")]) [] =
      .ok (.obj [("error",
        .str "No channel JSON data loaded. Please drag a JSON file into the chat first.")]) ∧
    executeJsonTool host0 "compute_stats_json" (.obj [("field", .str "nope")])
        [.obj [("a", .str "1"), ("b", .str "x")]] =
      .ok (.obj [("error", .str "No numeric values in \"nope\". Available: a, b")]) ∧
    executeJsonTool host0 "play_video" (.obj [("video_selector", .str "zzz")]) vidsABC =
      .ok (.obj [("error",
        .str "Video not found for \"zzz\". Try \"first\", \"most viewed\", or a title keyword.")]) :=
  ⟨by with_unfolding_all rfl, by with_unfolding_all rfl, by with_unfolding_all rfl,
   by with_unfolding_all rfl, by with_unfolding_all rfl⟩

/-! ## C4 — durationToSeconds -/

/-- C4 (code evaluated at the claimed inputs): the ISO form parses to 3723,
but the colon forms return the leading integer (1, resp. 2): `parseFloat`
accepts the digits before the first colon, so the function returns early and
its colon-format branch — which would compute 3723 resp. 123 — is
unreachable for such inputs. -/
theorem c4_durationToSeconds_eval :
    durationToSeconds (.str "PT1H2M3S") = some 3723 ∧
    durationToSeconds (.str "1:02:03") = some 1 ∧
    durationToSeconds (.str "2:03") = some 2 ∧
    parseFloatJS (.str "1:02:03") = some 1 ∧
    parseFloatJS (.str "2:03") = some 2 ∧
    colonMatch "1:02:03".data = some (1, 2, 3) ∧
    colonMatch "2:03".data = some (0, 2, 3) :=
  ⟨by with_unfolding_all rfl, by with_unfolding_all rfl, by with_unfolding_all rfl,
   by with_unfolding_all rfl, by with_unfolding_all rfl, by with_unfolding_all rfl,
   by with_unfolding_all rfl⟩

/-! ## C5 — play_video selector resolution -/

/-- C5: on records titled A/B/C with view counts 10/30/20, "most viewed"
selects B (view-count extremum), "first" selects A, "third" selects C, and
an unmatched selector yields an `{error}` naming it; each success is the
`{_displayType, title, thumbnail, url}` display card.  The last two
conjuncts separate the priorities: a title containing "most viewed" does not
preempt the extremum rule, and a title containing "first" does not preempt
the ordinal rule. -/
theorem c5_select_record :
    executeJsonTool host0 "play_video" (.obj [("video_selector", .str "most viewed")]) vidsABC =
      .ok (.obj [("_displayType", .str "video"), ("title", .str "B"),
        ("thumbnail", .str "tb"), ("url", .str "ub")]) ∧
    executeJsonTool host0 "play_video" (.obj [("video_selector", .str "first")]) vidsABC =
      .ok (.obj [("_displayType", .str "video"), ("title", .str "A"),
        ("thumbnail", .str "ta"), ("url", .str "ua")]) ∧
    executeJsonTool host0 "play_video" (.obj [("video_selector", .str "third")]) vidsABC =
      .ok (.obj [("_displayType", .str "video"), ("title", .str "C"),
        ("thumbnail", .str "tc"), ("url", .str "uc")]) ∧
    executeJsonTool host0 "play_video" (.obj [("video_selector", .str "zzz")]) vidsABC =
      .ok (.obj [("error",
        .str "Video not found for \"zzz\". Try \"first\", \"most viewed\", or a title keyword.")]) ∧
    executeJsonTool host0 "play_video" (.obj [("video_selector", .str "most viewed")]) vidsPrio =
      .ok (.obj [("_displayType", .str "video"), ("title", .str "first place"),
        ("thumbnail", .str "t2"), ("url", .str "u2")]) ∧
    executeJsonTool host0 "play_video" (.obj [("video_selector", .str "first")]) vidsPrio =
      .ok (.obj [("_displayType", .str "video"), ("title", .str "the most viewed thing"),
        ("thumbnail", .str "t1"), ("url", .str "u1")]) :=
  ⟨by with_unfolding_all rfl, by with_unfolding_all rfl, by with_unfolding_all rfl,
   by with_unfolding_all rfl, by with_unfolding_all rfl, by with_unfolding_all rfl⟩

/-! ## C6 — field resolution -/

/-- C6 counterexample: for the non-empty record array `[{"_": 1}]` and the
requested name `""`, the name is not exactly a key and the first (only) key
`"_"` has the same lowercased separator-stripped form as the requested name —
the claim then demands that `"_"` be returned — but `resolveField` returns
the requested empty name unchanged (the `!name` falsiness guard fires before
any matching). -/
theorem c6_counterexample :
    resolveField [.obj [("_", .num 1)]] (.str "") = .ok (.str "") ∧
    (["_"].contains "") = false ∧
    normName "_" = normName "" ∧
    ("_" : String) ≠ "" :=
  ⟨by with_unfolding_all rfl, by decide, by decide, by decide⟩

/-- C6 (amended): for every non-empty record array whose first record is an
object and every non-empty requested name: an exact key is returned
unchanged; otherwise the first key whose lowercased separator-stripped form
equals that of the requested name is returned (via `jsOr`: an empty-string
matching key is falsy and falls back to the requested name); and with no
matching key the requested name is returned unchanged.  An empty requested
name is always returned unchanged.  Concretely, both "View_Count" and
"viewcount" resolve to the actual key "view_count". -/
theorem c6_resolveField :
    (∀ (rows : List JVal) (fs : List (String × JVal)) (name : String), name ≠ "" →
      ((fs.map Prod.fst).contains name = true →
          resolveField (JVal.obj fs :: rows) (.str name) = .ok (.str name)) ∧
      (∀ k, (fs.map Prod.fst).contains name = false →
          (fs.map Prod.fst).find? (fun k2 => normName k2 == normName name) = some k →
          resolveField (JVal.obj fs :: rows) (.str name) = .ok (jsOr (.str k) (.str name))) ∧
      ((fs.map Prod.fst).contains name = false →
          (fs.map Prod.fst).find? (fun k2 => normName k2 == normName name) = none →
          resolveField (JVal.obj fs :: rows) (.str name) = .ok (.str name))) ∧
    (∀ (rows : List JVal) (name : JVal), rows ≠ [] → jsTruthy name = false →
      resolveField rows name = .ok name) ∧
    resolveField [.obj [("title", .num 1), ("view_count", .num 2)]] (.str "View_Count") =
      .ok (.str "view_count") ∧
    resolveField [.obj [("title", .num 1), ("view_count", .num 2)]] (.str "viewcount") =
      .ok (.str "view_count") := by
  refine ⟨?_, ?_, by with_unfolding_all rfl, by with_unfolding_all rfl⟩
  · intro rows fs name hne
    have hguard : ((JVal.obj fs :: rows).length == 0 || !jsTruthy (.str name)) = false := by
      simp [jsTruthy, hne]
    refine ⟨?_, ?_, ?_⟩
    · intro hc
      have hmem : name ∈ fs.map Prod.fst := by simpa using hc
      simp [resolveField, hguard, jsKeys, jsTruthy, hne, hmem, bind, Except.bind, pure,
        Except.pure]
    · intro k hc hf
      have hmem : name ∉ fs.map Prod.fst := by simpa using hc
      rw [List.find?_map] at hf
      simp [resolveField, hguard, jsKeys, jsTruthy, hne, hmem, hf, bind, Except.bind, pure,
        Except.pure]
    · intro hc hf
      have hmem : name ∉ fs.map Prod.fst := by simpa using hc
      rw [List.find?_map] at hf
      simp [resolveField, hguard, jsKeys, jsTruthy, hne, hmem, hf, bind, Except.bind, pure,
        Except.pure]
  · intro rows name hne hfalsy
    cases rows with
    | nil => exact absurd rfl hne
    | cons r rs => simp [resolveField, hfalsy, pure, Except.pure]

/-- C6 witness: the general rules applied at concrete inputs — an exact key,
a case/separator-insensitive match, and a non-matching name. -/
theorem c6_resolveField_witness :
    resolveField [JVal.obj [("view_count", .num 2)]] (.str "view_count") =
        .ok (.str "view_count") ∧
    resolveField [JVal.obj [("view_count", .num 2)]] (.str "View_Count") =
        .ok (jsOr (.str "view_count") (.str "View_Count")) ∧
    resolveField [JVal.obj [("view_count", .num 2)]] (.str "nope") = .ok (.str "nope") := by
  refine ⟨?_, ?_, ?_⟩
  · exact ((c6_resolveField.1 [] [("view_count", .num 2)] "view_count" (by decide)).1
      (by decide))
  · exact ((c6_resolveField.1 [] [("view_count", .num 2)] "View_Count" (by decide)).2.1
      "view_count" (by decide) (by with_unfolding_all rfl))
  · exact ((c6_resolveField.1 [] [("view_count", .num 2)] "nope" (by decide)).2.2
      (by decide) (by with_unfolding_all rfl))

/-! ## C8 — normalizeParams is idempotent and lossless -/

/-- Field lookup on an object value. -/
def jfield (v : JVal) (key : String) : Option JVal :=
  match v with
  | .obj fs => jlookup fs key
  | _ => none

/-- The token rewrite hits one of the five lowercase results or leaves the
value alone. -/
theorem typeTokenMap_cases (v : JVal) :
    typeTokenMap v = v ∨ typeTokenMap v = .str "string" ∨ typeTokenMap v = .str "number" ∨
      typeTokenMap v = .str "boolean" ∨ typeTokenMap v = .str "array" ∨
      typeTokenMap v = .str "object" := by
  unfold typeTokenMap
  split_ifs <;> simp

/-- The token rewrite is idempotent. -/
theorem typeTokenMap_idem (v : JVal) : typeTokenMap (typeTokenMap v) = typeTokenMap v := by
  rcases typeTokenMap_cases v with h | h | h | h | h | h <;> simp only [h] <;> rfl

/-- The per-entry type rewrite of `normalizeProp` is idempotent. -/
theorem propTypeEntryMap_idem (kv : String × JVal) :
    propTypeEntryMap (propTypeEntryMap kv) = propTypeEntryMap kv := by
  unfold propTypeEntryMap
  by_cases h : (kv.1 == "type") = true
  · simp [h, typeTokenMap_idem]
  · simp [h]

/-- `normalizeProp` is idempotent. -/
theorem normalizeProp_idem (v : JVal) : normalizeProp (normalizeProp v) = normalizeProp v := by
  cases v
  case obj fs =>
      simp only [normalizeProp, List.map_map]
      congr 1
      exact List.map_congr_left
        (fun a _ => by simpa [Function.comp] using propTypeEntryMap_idem a)
  all_goals rfl

/-- `mapProperties` is idempotent. -/
theorem mapProperties_idem (v : JVal) : mapProperties (mapProperties v) = mapProperties v := by
  cases v
  case obj gs =>
      simp only [mapProperties, List.map_map]
      congr 1
      apply List.map_congr_left
      intro a _
      simp [Function.comp, normalizeProp_idem]
  all_goals rfl

/-- `typeEntryMap` is idempotent. -/
theorem typeEntryMap_idem (kv : String × JVal) :
    typeEntryMap (typeEntryMap kv) = typeEntryMap kv := by
  unfold typeEntryMap
  split_ifs with h1 h2
  · simp [strictEqStr] at h2
  · rfl
  · rfl

/-- `propsEntryMap` is idempotent. -/
theorem propsEntryMap_idem (kv : String × JVal) :
    propsEntryMap (propsEntryMap kv) = propsEntryMap kv := by
  unfold propsEntryMap
  split_ifs with h1
  · simp [mapProperties_idem]
  · rfl

/-- `typeEntryMap` fixes everything in the image of
`propsEntryMap ∘ typeEntryMap`. -/
theorem typeEntryMap_fix_props (kv : String × JVal) :
    typeEntryMap (propsEntryMap (typeEntryMap kv)) = propsEntryMap (typeEntryMap kv) := by
  rcases h : typeEntryMap kv with ⟨k, v⟩
  by_cases hk : (k == "properties") = true
  · have hkp : k = "properties" := by simpa using hk
    simp only [propsEntryMap, hk, if_pos, typeEntryMap, hkp]
    rfl
  · simp only [propsEntryMap, hk, if_neg, Bool.not_eq_true]
    have h2 := typeEntryMap_idem kv
    rw [h] at h2
    simpa [propsEntryMap, hk] using h2

/-- Lookups of a key other than `type` pass through the type rewrite. -/
theorem jlookup_typeEntryMap_other (key : String) (hk : key ≠ "type") :
    ∀ l : List (String × JVal), jlookup (l.map typeEntryMap) key = jlookup l key
  | [] => rfl
  | kv :: l => by
      have hfst : (typeEntryMap kv).1 = kv.1 := by unfold typeEntryMap; split_ifs <;> rfl
      cases hbe : (kv.1 == key) with
      | true =>
          have hkv : kv.1 = key := by simpa using hbe
          have hfix : typeEntryMap kv = kv := by
            unfold typeEntryMap
            rw [if_neg]
            simp only [Bool.and_eq_true, not_and]
            intro h1 _
            exact hk (by rw [← hkv]; simpa using h1)
          simp only [jlookup, List.map_cons, List.find?, hfix, hbe]
      | false =>
          simp only [jlookup, List.map_cons, List.find?, hfst, hbe]
          exact jlookup_typeEntryMap_other key hk l

/-- Lookups of `type` pass through the type rewrite with the
`OBJECT → object` substitution applied. -/
theorem jlookup_typeEntryMap_type :
    ∀ l : List (String × JVal), jlookup (l.map typeEntryMap) "type" =
      (jlookup l "type").map (fun v => if strictEqStr v "OBJECT" then .str "object" else v)
  | [] => rfl
  | kv :: l => by
      have hfst : (typeEntryMap kv).1 = kv.1 := by unfold typeEntryMap; split_ifs <;> rfl
      cases hbe : (kv.1 == "type") with
      | true =>
          simp only [jlookup, List.map_cons, List.find?, hfst, hbe, Option.map_some]
          unfold typeEntryMap
          rw [hbe]
          by_cases h2 : strictEqStr kv.2 "OBJECT" = true
          · simp [h2]
          · simp [h2]
      | false =>
          simp only [jlookup, List.map_cons, List.find?, hfst, hbe]
          exact jlookup_typeEntryMap_type l

/-- Lookups of a key other than `properties` pass through the properties
rewrite. -/
theorem jlookup_propsEntryMap_other (key : String) (hk : key ≠ "properties") :
    ∀ l : List (String × JVal), jlookup (l.map propsEntryMap) key = jlookup l key
  | [] => rfl
  | kv :: l => by
      have hfst : (propsEntryMap kv).1 = kv.1 := by unfold propsEntryMap; split_ifs <;> rfl
      cases hbe : (kv.1 == key) with
      | true =>
          have hkv : kv.1 = key := by simpa using hbe
          have hfix : propsEntryMap kv = kv := by
            unfold propsEntryMap
            rw [if_neg]
            intro h1
            exact hk (by rw [← hkv]; simpa using h1)
          simp only [jlookup, List.map_cons, List.find?, hfix, hbe]
      | false =>
          simp only [jlookup, List.map_cons, List.find?, hfst, hbe]
          exact jlookup_propsEntryMap_other key hk l

/-- Lookups of `properties` pass through the properties rewrite with
`mapProperties` applied. -/
theorem jlookup_propsEntryMap_props :
    ∀ l : List (String × JVal), jlookup (l.map propsEntryMap) "properties" =
      (jlookup l "properties").map mapProperties
  | [] => rfl
  | kv :: l => by
      have hfst : (propsEntryMap kv).1 = kv.1 := by unfold propsEntryMap; split_ifs <;> rfl
      cases hbe : (kv.1 == "properties") with
      | true =>
          simp only [jlookup, List.map_cons, List.find?, hfst, hbe, Option.map_some]
          unfold propsEntryMap
          rw [if_pos hbe]
          rfl
      | false =>
          simp only [jlookup, List.map_cons, List.find?, hfst, hbe]
          exact jlookup_propsEntryMap_props l

/-- The result of `mapProperties` is always truthy (an object). -/
theorem mapProperties_truthy (v : JVal) : jsTruthy (mapProperties v) = true := by
  cases v <;> rfl

/-- Double application of the type rewrite collapses. -/
theorem map_typeEntryMap_idem (fs : List (String × JVal)) :
    (fs.map typeEntryMap).map typeEntryMap = fs.map typeEntryMap := by
  rw [List.map_map]
  exact List.map_congr_left (fun a _ => by simpa [Function.comp] using typeEntryMap_idem a)

/-- The type rewrite fixes a field list that has already been through both
rewrites. -/
theorem map_fix_after_props (fs : List (String × JVal)) :
    ((fs.map typeEntryMap).map propsEntryMap).map typeEntryMap =
      (fs.map typeEntryMap).map propsEntryMap := by
  conv_lhs => rw [List.map_map, List.map_map]
  conv_rhs => rw [List.map_map]
  exact List.map_congr_left (fun a _ => by simpa [Function.comp] using typeEntryMap_fix_props a)

/-- Double application of the properties rewrite collapses. -/
theorem map_props_idem (l : List (String × JVal)) :
    (l.map propsEntryMap).map propsEntryMap = l.map propsEntryMap := by
  rw [List.map_map]
  exact List.map_congr_left (fun a _ => by simpa [Function.comp] using propsEntryMap_idem a)

/-- Unfolding `normalizeParams` on an object with no (present) `properties`
field. -/
theorem normalizeParams_obj_none (fs : List (String × JVal))
    (h : jlookup (fs.map typeEntryMap) "properties" = none) :
    normalizeParams (.obj fs) = .obj (fs.map typeEntryMap) := by
  simp only [normalizeParams, h]

/-- Unfolding `normalizeParams` on an object with a falsy `properties`
field. -/
theorem normalizeParams_obj_falsy (fs : List (String × JVal)) (pv : JVal)
    (h : jlookup (fs.map typeEntryMap) "properties" = some pv) (ht : jsTruthy pv = false) :
    normalizeParams (.obj fs) = .obj (fs.map typeEntryMap) := by
  simp only [normalizeParams, h, ht]
  simp

/-- Unfolding `normalizeParams` on an object with a truthy `properties`
field. -/
theorem normalizeParams_obj_truthy (fs : List (String × JVal)) (pv : JVal)
    (h : jlookup (fs.map typeEntryMap) "properties" = some pv) (ht : jsTruthy pv = true) :
    normalizeParams (.obj fs) = .obj ((fs.map typeEntryMap).map propsEntryMap) := by
  simp only [normalizeParams, h, ht]
  simp

/-- `normalizeParams` is idempotent. -/
theorem normalizeParams_idem (p : JVal) :
    normalizeParams (normalizeParams p) = normalizeParams p := by
  cases p
  case obj fs =>
    cases hl : jlookup (fs.map typeEntryMap) "properties" with
    | none =>
        rw [normalizeParams_obj_none fs hl,
          normalizeParams_obj_none _ (by rw [map_typeEntryMap_idem]; exact hl),
          map_typeEntryMap_idem]
    | some pv =>
        cases ht : jsTruthy pv with
        | false =>
            rw [normalizeParams_obj_falsy fs pv hl ht,
              normalizeParams_obj_falsy _ pv (by rw [map_typeEntryMap_idem]; exact hl) ht,
              map_typeEntryMap_idem]
        | true =>
            rw [normalizeParams_obj_truthy fs pv hl ht]
            have hl2 : jlookup ((((fs.map typeEntryMap).map propsEntryMap)).map typeEntryMap)
                "properties" = some (mapProperties pv) := by
              rw [map_fix_after_props, jlookup_propsEntryMap_props, hl]
              rfl
            rw [normalizeParams_obj_truthy _ (mapProperties pv) hl2 (mapProperties_truthy pv)]
            rw [map_fix_after_props, map_props_idem]
  all_goals rfl

/-- Lookups of a key other than `type` pass through the per-property type
rewrite of `normalizeProp`. -/
theorem jlookup_propTypeMap_other (key : String) (hk : key ≠ "type") :
    ∀ gs : List (String × JVal),
      jlookup (gs.map propTypeEntryMap) key = jlookup gs key
  | [] => rfl
  | kv :: gs => by
      have hfst : (propTypeEntryMap kv).1 = kv.1 := by
        unfold propTypeEntryMap; split_ifs <;> rfl
      cases hbe : (kv.1 == key) with
      | true =>
          have hkv : kv.1 = key := by simpa using hbe
          have hfix : propTypeEntryMap kv = kv := by
            unfold propTypeEntryMap
            rw [if_neg]
            intro h1
            exact hk (by rw [← hkv]; simpa using h1)
          simp only [jlookup, List.map_cons, List.find?, hfix, hbe]
      | false =>
          simp only [jlookup, List.map_cons, List.find?, hfst, hbe]
          exact jlookup_propTypeMap_other key hk gs

/-- Lookups of `type` pass through the per-property type rewrite with
`typeTokenMap` applied. -/
theorem jlookup_propTypeMap_type :
    ∀ gs : List (String × JVal),
      jlookup (gs.map propTypeEntryMap) "type" = (jlookup gs "type").map typeTokenMap
  | [] => rfl
  | kv :: gs => by
      have hfst : (propTypeEntryMap kv).1 = kv.1 := by
        unfold propTypeEntryMap; split_ifs <;> rfl
      cases hbe : (kv.1 == "type") with
      | true =>
          simp only [jlookup, List.map_cons, List.find?, hfst, hbe, Option.map_some]
          unfold propTypeEntryMap
          rw [if_pos hbe]
          rfl
      | false =>
          simp only [jlookup, List.map_cons, List.find?, hfst, hbe]
          exact jlookup_propTypeMap_type gs

/-- C8: `normalizeParams` is idempotent, and it is lossless for everything
except the type tokens: fields other than `type`/`properties` (such as
`description` and `required`) pass through unchanged; the top-level `type`
is rewritten only when it is the token `OBJECT`; each property schema keeps
every field, with only its `type` value sent through `typeTokenMap`; and
`typeTokenMap` maps exactly the five uppercase tokens
OBJECT/STRING/NUMBER/BOOLEAN/ARRAY to their lowercase forms, fixing every
other string. -/
theorem c8_normalizeParams :
    (∀ p : JVal, normalizeParams (normalizeParams p) = normalizeParams p) ∧
    (∀ (fs : List (String × JVal)) (key : String) (v : JVal),
        key ≠ "type" → key ≠ "properties" → jlookup fs key = some v →
        jfield (normalizeParams (.obj fs)) key = some v) ∧
    (∀ (fs : List (String × JVal)) (v : JVal), jlookup fs "type" = some v →
        jfield (normalizeParams (.obj fs)) "type" =
          some (if strictEqStr v "OBJECT" then .str "object" else v)) ∧
    (∀ (fs gs : List (String × JVal)), jlookup fs "properties" = some (.obj gs) →
        jfield (normalizeParams (.obj fs)) "properties" =
          some (.obj (gs.map (fun kv => (kv.1, normalizeProp kv.2))))) ∧
    (∀ (gs : List (String × JVal)) (key : String) (v : JVal), key ≠ "type" →
        jlookup gs key = some v → jfield (normalizeProp (.obj gs)) key = some v) ∧
    (∀ (gs : List (String × JVal)) (tv : JVal), jlookup gs "type" = some tv →
        jfield (normalizeProp (.obj gs)) "type" = some (typeTokenMap tv)) ∧
    (typeTokenMap (.str "OBJECT") = .str "object" ∧
      typeTokenMap (.str "STRING") = .str "string" ∧
      typeTokenMap (.str "NUMBER") = .str "number" ∧
      typeTokenMap (.str "BOOLEAN") = .str "boolean" ∧
      typeTokenMap (.str "ARRAY") = .str "array") ∧
    (∀ tok : String, tok ∉ ["OBJECT", "STRING", "NUMBER", "BOOLEAN", "ARRAY"] →
        typeTokenMap (.str tok) = .str tok) := by
  refine ⟨normalizeParams_idem, ?_, ?_, ?_, ?_, ?_, ⟨rfl, rfl, rfl, rfl, rfl⟩, ?_⟩
  · intro fs key v hkt hkp hv
    cases hl : jlookup (fs.map typeEntryMap) "properties" with
    | none =>
        rw [normalizeParams_obj_none fs hl]
        simpa [jfield, jlookup_typeEntryMap_other key hkt] using hv
    | some pv =>
        cases ht : jsTruthy pv with
        | false =>
            rw [normalizeParams_obj_falsy fs pv hl ht]
            simpa [jfield, jlookup_typeEntryMap_other key hkt] using hv
        | true =>
            rw [normalizeParams_obj_truthy fs pv hl ht]
            show jlookup ((fs.map typeEntryMap).map propsEntryMap) key = some v
            rw [jlookup_propsEntryMap_other key hkp, jlookup_typeEntryMap_other key hkt]
            exact hv
  · intro fs v hv
    cases hl : jlookup (fs.map typeEntryMap) "properties" with
    | none =>
        rw [normalizeParams_obj_none fs hl]
        show jlookup (fs.map typeEntryMap) "type" = _
        rw [jlookup_typeEntryMap_type, hv]
        rfl
    | some pv =>
        cases ht : jsTruthy pv with
        | false =>
            rw [normalizeParams_obj_falsy fs pv hl ht]
            show jlookup (fs.map typeEntryMap) "type" = _
            rw [jlookup_typeEntryMap_type, hv]
            rfl
        | true =>
            rw [normalizeParams_obj_truthy fs pv hl ht]
            show jlookup ((fs.map typeEntryMap).map propsEntryMap) "type" = _
            rw [jlookup_propsEntryMap_other "type" (by decide), jlookup_typeEntryMap_type, hv]
            rfl
  · intro fs gs hv
    have hv2 : jlookup (fs.map typeEntryMap) "properties" = some (.obj gs) := by
      rw [jlookup_typeEntryMap_other "properties" (by decide)]
      exact hv
    rw [normalizeParams_obj_truthy fs (.obj gs) hv2 rfl]
    show jlookup ((fs.map typeEntryMap).map propsEntryMap) "properties" = _
    rw [jlookup_propsEntryMap_props, hv2]
    rfl
  · intro gs key v hkt hv
    show jlookup (gs.map _) key = some v
    rw [jlookup_propTypeMap_other key hkt]
    exact hv
  · intro gs tv hv
    show jlookup (gs.map _) "type" = _
    rw [jlookup_propTypeMap_type, hv]
    rfl
  · intro tok htok
    simp only [List.mem_cons, List.not_mem_nil, or_false, not_or] at htok
    obtain ⟨h1, h2, h3, h4, h5⟩ := htok
    simp [typeTokenMap, strictEqStr, h1, h2, h3, h4, h5]

/-- The field list of the `compute_stats_json` parameter schema
(`JSON_TOOL_DECLARATIONS[0].parameters` in `src/src/services/jsonTools.js`). -/
def computeStatsParamsFields : List (String × JVal) :=
  [("type", .str "OBJECT"),
   ("properties", .obj [("field", .obj [("type", .str "STRING"),
     ("description",
       .str "Exact numeric field name from the JSON (e.g. view_count, like_count, comment_count).")])]),
   ("required", .arr [.str "field"])]

/-- C8 witness: the compute_stats_json parameter schema is a fixed point of
a second normalisation, its `required` field passes through unchanged, and
its `type` token is lowercased. -/
theorem c8_normalizeParams_witness :
    normalizeParams (normalizeParams (.obj computeStatsParamsFields)) =
        normalizeParams (.obj computeStatsParamsFields) ∧
    jfield (normalizeParams (.obj computeStatsParamsFields)) "required" =
        some (.arr [.str "field"]) ∧
    jfield (normalizeParams (.obj computeStatsParamsFields)) "type" = some (.str "object") := by
  refine ⟨c8_normalizeParams.1 (.obj computeStatsParamsFields), ?_, ?_⟩
  · exact c8_normalizeParams.2.1 computeStatsParamsFields "required" (.arr [.str "field"])
      (by decide) (by decide) rfl
  · have h := c8_normalizeParams.2.2.1 computeStatsParamsFields (.str "OBJECT") rfl
    rw [if_pos (show strictEqStr (JVal.str "OBJECT") "OBJECT" = true from rfl)] at h
    exact h

/-! ## C10 — invariants of the compute_stats_json result -/

/-- A left fold with `min` is below its start value. -/
theorem foldl_min_le_start : ∀ (l : List ℚ) (a : ℚ), l.foldl min a ≤ a
  | [], a => le_refl a
  | b :: l, a => (foldl_min_le_start l (min a b)).trans (min_le_left a b)

/-- A left fold with `min` is below every list element. -/
theorem foldl_min_le_mem : ∀ (l : List ℚ) (a x : ℚ), x ∈ l → l.foldl min a ≤ x
  | b :: l, a, x, hx => by
      rcases List.mem_cons.mp hx with h | h
      · subst h
        exact (foldl_min_le_start l (min a x)).trans (min_le_right a x)
      · exact foldl_min_le_mem l (min a b) x h

/-- A left fold with `max` is above its start value. -/
theorem start_le_foldl_max : ∀ (l : List ℚ) (a : ℚ), a ≤ l.foldl max a
  | [], a => le_refl a
  | b :: l, a => (le_max_left a b).trans (start_le_foldl_max l (max a b))

/-- A left fold with `max` is above every list element. -/
theorem mem_le_foldl_max : ∀ (l : List ℚ) (a x : ℚ), x ∈ l → x ≤ l.foldl max a
  | b :: l, a, x, hx => by
      rcases List.mem_cons.mp hx with h | h
      · subst h
        exact (le_max_right a x).trans (start_le_foldl_max l (max a x))
      · exact mem_le_foldl_max l (max a b) x h

/-- `Math.min(...vs)` is a lower bound of a nonempty `vs`. -/
theorem jsMinList_le {vs : List ℚ} {x : ℚ} (hx : x ∈ vs) : jsMinList vs ≤ x := by
  cases vs with
  | nil => cases hx
  | cons v l =>
      rcases List.mem_cons.mp hx with h | h
      · subst h
        exact foldl_min_le_start l x
      · exact foldl_min_le_mem l v x h

/-- `Math.max(...vs)` is an upper bound of a nonempty `vs`. -/
theorem le_jsMaxList {vs : List ℚ} {x : ℚ} (hx : x ∈ vs) : x ≤ jsMaxList vs := by
  cases vs with
  | nil => cases hx
  | cons v l =>
      rcases List.mem_cons.mp hx with h | h
      · subst h
        exact start_le_foldl_max l x
      · exact mem_le_foldl_max l v x h

/-- The arithmetic mean of a nonempty list lies between its minimum and
maximum. -/
theorem mean_bounds {vs : List ℚ} (h : vs ≠ []) :
    jsMinList vs ≤ vs.sum / vs.length ∧ vs.sum / vs.length ≤ jsMaxList vs := by
  have hlen : 0 < (vs.length : ℚ) := by
    have : 0 < vs.length := List.length_pos.mpr h
    exact_mod_cast this
  constructor
  · rw [le_div_iff₀ hlen]
    have hs := List.card_nsmul_le_sum vs (jsMinList vs) (fun x hx => jsMinList_le hx)
    rw [nsmul_eq_mul] at hs
    linarith
  · rw [div_le_iff₀ hlen]
    have hs := List.sum_le_card_nsmul vs (jsMaxList vs) (fun x hx => le_jsMaxList hx)
    rw [nsmul_eq_mul] at hs
    linarith

/-- The `median` of the sorted copy of a nonempty list lies between the
minimum and maximum of the list. -/
theorem median_bounds {vs : List ℚ} (h : vs ≠ []) :
    jsMinList vs ≤ median (List.insertionSort (· ≤ ·) vs) ∧
      median (List.insertionSort (· ≤ ·) vs) ≤ jsMaxList vs := by
  have hperm := List.perm_insertionSort (· ≤ ·) vs
  have hlen : (List.insertionSort (· ≤ ·) vs).length = vs.length := hperm.length_eq
  have hpos : 0 < vs.length := List.length_pos.mpr h
  have hmem : ∀ i, i < vs.length → (List.insertionSort (· ≤ ·) vs).getD i 0 ∈ vs := by
    intro i hi
    have hi2 : i < (List.insertionSort (· ≤ ·) vs).length := by omega
    rw [List.getD_eq_getElem?_getD, List.getElem?_eq_getElem hi2]
    exact hperm.mem_iff.mp (List.getElem_mem hi2)
  unfold median
  rw [hlen]
  by_cases he : (vs.length % 2 == 0) = true
  · rw [if_pos he]
    have h1 : (List.insertionSort (· ≤ ·) vs).getD (vs.length / 2 - 1) 0 ∈ vs :=
      hmem _ (by omega)
    have h2 : (List.insertionSort (· ≤ ·) vs).getD (vs.length / 2) 0 ∈ vs :=
      hmem _ (by omega)
    have b1 := jsMinList_le h1
    have b2 := jsMinList_le h2
    have b3 := le_jsMaxList h1
    have b4 := le_jsMaxList h2
    constructor <;> [linarith; linarith]
  · rw [if_neg he]
    have h1 : (List.insertionSort (· ≤ ·) vs).getD (vs.length / 2) 0 ∈ vs :=
      hmem _ (by omega)
    exact ⟨jsMinList_le h1, le_jsMaxList h1⟩

/-- The 4-decimal rounding of `fmt` moves a value by at most `1/20000`. -/
theorem fmt_close (q : ℚ) : |fmt q - q| ≤ 1 / 20000 := by
  unfold fmt
  split_ifs
  · simp
  · unfold round4
    have h := abs_sub_round (q * 10000)
    rw [abs_sub_comm] at h
    have h2 : ((round (q * 10000) : ℤ) : ℚ) / 10000 - q =
        (((round (q * 10000) : ℤ) : ℚ) - q * 10000) / 10000 := by ring
    rw [h2, abs_div, abs_of_pos (show (0:ℚ) < 10000 by norm_num),
      div_le_iff₀ (by norm_num : (0:ℚ) < 10000)]
    linarith

/-- The field values of the stats record. -/
theorem statsObj_fields (host : HostFns) (field : JVal) (vs : List ℚ) :
    jfield (statsObj host field vs) "count" = some (.num vs.length) ∧
    jfield (statsObj host field vs) "mean" = some (.num (fmt (vs.sum / vs.length))) ∧
    jfield (statsObj host field vs) "median" =
      some (.num (fmt (median (List.insertionSort (· ≤ ·) vs)))) ∧
    jfield (statsObj host field vs) "min" = some (.num (jsMinList vs)) ∧
    jfield (statsObj host field vs) "max" = some (.num (jsMaxList vs)) ∧
    jfield (statsObj host field vs) "error" = none :=
  ⟨rfl, rfl, rfl, rfl, rfl, rfl⟩

/-- A successful `computeStatsJson` result is either an error record or the
stats record of a nonempty value list. -/
theorem computeStatsJson_ok (host : HostFns) (args : JVal) (videos : List JVal) (r : JVal)
    (h : computeStatsJson host args videos = .ok r) :
    (∃ msg, r = .obj [("error", .str msg)]) ∨
      (∃ field vs, vs ≠ [] ∧ r = statsObj host field vs) := by
  unfold computeStatsJson at h
  simp only [bind, Except.bind] at h
  repeat' split at h
  all_goals first
  | exact absurd h (by simp)
  | (simp only [pure, Except.pure, Except.ok.injEq] at h
     left
     exact ⟨_, h.symm⟩)
  | (simp only [pure, Except.pure, Except.ok.injEq] at h
     right
     rename_i hne
     refine ⟨_, _, ?_, h.symm⟩
     intro hnil
     apply hne
     simp [hnil])

/-- With records present, the stats tool dispatches to `computeStatsJson`. -/
theorem executeJsonTool_stats_eq (host : HostFns) (args : JVal) (videos : List JVal)
    (h : (videos.length == 0) = false) :
    executeJsonTool host "compute_stats_json" args videos = computeStatsJson host args videos := by
  unfold executeJsonTool
  rw [if_neg (by simp [h])]
  rfl

/-- C10 counterexample: on records whose metric values are 0.00001 and
0.00002 the code returns mean 0 (the 4-decimal `toFixed` rounding of
0.000015) while min is 0.00001, so the returned mean lies strictly below
the returned min — the claimed invariant fails as stated for the rounded
mean/median fields. -/
theorem c10_counterexample :
    executeJsonTool host0 "compute_stats_json" (.obj [("field", .str "v")])
        [.obj [("v", .str "0.00001")], .obj [("v", .str "0.00002")]] =
      .ok (.obj [("field", .str "v"), ("count", .num 2), ("mean", .num 0), ("median", .num 0),
        ("std", .num 0), ("min", .num (1 / 100000)), ("max", .num (1 / 50000))]) ∧
    ¬ ((1 : ℚ) / 100000 ≤ 0) :=
  ⟨by with_unfolding_all rfl, by norm_num⟩

/-- C10 (amended): whenever `compute_stats_json` returns a non-error result,
that result satisfies `count ≥ 1` and `min ≤ max`; the returned mean and
median are the 4-decimal `fmt` roundings of values that lie between the
returned min and max (inclusive), and hence themselves lie within `1/20000`
of that interval. -/
theorem c10_stats_invariants (host : HostFns) (args : JVal) (videos : List JVal) (r : JVal)
    (hexec : executeJsonTool host "compute_stats_json" args videos = .ok r)
    (herr : jfield r "error" = none) :
    ∃ vs : List ℚ, 1 ≤ vs.length ∧
      jfield r "count" = some (.num vs.length) ∧
      jfield r "min" = some (.num (jsMinList vs)) ∧
      jfield r "max" = some (.num (jsMaxList vs)) ∧
      jsMinList vs ≤ jsMaxList vs ∧
      (∃ m0 : ℚ, jfield r "mean" = some (.num (fmt m0)) ∧ jsMinList vs ≤ m0 ∧
        m0 ≤ jsMaxList vs ∧ |fmt m0 - m0| ≤ 1 / 20000) ∧
      (∃ d0 : ℚ, jfield r "median" = some (.num (fmt d0)) ∧ jsMinList vs ≤ d0 ∧
        d0 ≤ jsMaxList vs ∧ |fmt d0 - d0| ≤ 1 / 20000) := by
  have herrObj : ∀ m : String, r = .obj [("error", .str m)] → False := by
    intro m hm
    rw [hm] at herr
    simp [jfield, jlookup, List.find?] at herr
  have hlen : (videos.length == 0) = false := by
    cases hv : (videos.length == 0) with
    | false => rfl
    | true =>
        unfold executeJsonTool at hexec
        rw [if_pos hv] at hexec
        injection hexec with hr
        exact (herrObj _ hr.symm).elim
  rw [executeJsonTool_stats_eq host args videos hlen] at hexec
  rcases computeStatsJson_ok host args videos r hexec with ⟨m, hm⟩ | ⟨field, vs, hvs, hr⟩
  · exact (herrObj m hm).elim
  · subst hr
    obtain ⟨hcount, hmean, hmedian, hmin, hmax, -⟩ := statsObj_fields host field vs
    have hhead : vs.headD 0 ∈ vs := by
      cases vs with
      | nil => exact absurd rfl hvs
      | cons a l => simp
    have hminmax : jsMinList vs ≤ jsMaxList vs :=
      (jsMinList_le hhead).trans (le_jsMaxList hhead)
    refine ⟨vs, ?_, hcount, hmin, hmax, hminmax,
      ⟨vs.sum / vs.length, hmean, (mean_bounds hvs).1, (mean_bounds hvs).2, fmt_close _⟩,
      ⟨median (List.insertionSort (· ≤ ·) vs), hmedian, (median_bounds hvs).1,
        (median_bounds hvs).2, fmt_close _⟩⟩
    have : 0 < vs.length := List.length_pos.mpr hvs
    omega

/-- C10 witness: the invariants instantiated on records with metric values
1 and 2. -/
theorem c10_stats_invariants_witness :
    ∃ vs : List ℚ, 1 ≤ vs.length ∧
      jfield (statsObj host0 (.str "v") [1, 2]) "count" = some (.num vs.length) ∧
      jfield (statsObj host0 (.str "v") [1, 2]) "min" = some (.num (jsMinList vs)) ∧
      jfield (statsObj host0 (.str "v") [1, 2]) "max" = some (.num (jsMaxList vs)) ∧
      jsMinList vs ≤ jsMaxList vs ∧
      (∃ m0 : ℚ, jfield (statsObj host0 (.str "v") [1, 2]) "mean" = some (.num (fmt m0)) ∧
        jsMinList vs ≤ m0 ∧ m0 ≤ jsMaxList vs ∧ |fmt m0 - m0| ≤ 1 / 20000) ∧
      (∃ d0 : ℚ, jfield (statsObj host0 (.str "v") [1, 2]) "median" = some (.num (fmt d0)) ∧
        jsMinList vs ≤ d0 ∧ d0 ≤ jsMaxList vs ∧ |fmt d0 - d0| ≤ 1 / 20000) :=
  c10_stats_invariants host0 (.obj [("field", .str "v")])
    [.obj [("v", .str "1")], .obj [("v", .str "2")]]
    (statsObj host0 (.str "v") [1, 2])
    (by with_unfolding_all rfl) (by with_unfolding_all rfl)

/-! ## C7 — plot_metric_vs_time -/

instance (host : HostFns) : IsTotal JVal (dateLe host) :=
  ⟨fun a b => le_total _ _⟩

instance (host : HostFns) : IsTrans JVal (dateLe host) :=
  ⟨fun _ _ _ hab hbc => le_trans hab hbc⟩

/-- A successful effectful map relates inputs and outputs elementwise. -/
theorem mapMP_ok_forall2 (f : JVal → Except RtError (Option JVal)) :
    ∀ (l : List JVal) (out : List (Option JVal)), mapMP f l = .ok out →
      List.Forall₂ (fun v p => f v = .ok p) l out
  | [], out, h => by
      simp only [mapMP] at h
      injection h with h
      rw [← h]
      exact List.Forall₂.nil
  | a :: l, out, h => by
      simp only [mapMP, bind, Except.bind] at h
      cases h1 : f a with
      | error e => rw [h1] at h; simp at h
      | ok b =>
          rw [h1] at h
          cases h2 : mapMP f l with
          | error e => rw [h2] at h; simp at h
          | ok bs =>
              rw [h2] at h
              simp only [pure, Except.pure, Except.ok.injEq] at h
              rw [← h]
              exact List.Forall₂.cons h1 (mapMP_ok_forall2 f l bs h2)

/-- A non-dropped chart point is the `{date, label, value, title}` record of
a record whose date field is present and non-null. -/
theorem plotPointOf_some_shape (host : HostFns) (mf df v p : JVal)
    (h : plotPointOf host mf df v = .ok (some p)) :
    ∃ dv mv t, getProp v df = .ok dv ∧ isNullish dv = false ∧
      p = .obj [("date", dv), ("label", .str (host.dateLabel dv)), ("value", .num mv),
        ("title", t)] := by
  unfold plotPointOf at h
  simp only [bind, Except.bind] at h
  cases h1 : plotMetricVal mf v with
  | error e => rw [h1] at h; simp at h
  | ok mv =>
      rw [h1] at h
      dsimp only at h
      cases h2 : getProp v df with
      | error e => rw [h2] at h; simp at h
      | ok dv =>
          rw [h2] at h
          dsimp only at h
          by_cases h3 : (isNullish dv || (mv.isNone && !(mv == some 0))) = true
          · rw [if_pos h3] at h
            simp [pure, Except.pure] at h
          · rw [if_neg h3] at h
            cases h4 : getPropS v "title" with
            | error e => rw [h4] at h; simp at h
            | ok t =>
                rw [h4] at h
                simp only [pure, Except.pure, Except.ok.injEq, Option.some.injEq] at h
                refine ⟨dv, _, jsOr t (.str ""), rfl, ?_, h.symm⟩
                simp only [Bool.or_eq_true, not_or] at h3
                exact Bool.eq_false_iff.mpr h3.1

/-- With records present, the plot tool dispatches to `plotMetricVsTime`. -/
theorem executeJsonTool_plot_eq (host : HostFns) (args : JVal) (videos : List JVal)
    (h : (videos.length == 0) = false) :
    executeJsonTool host "plot_metric_vs_time" args videos = plotMetricVsTime host args videos := by
  unfold executeJsonTool
  rw [if_neg (by simp [h])]
  rfl

/-- In a `Forall₂` correspondence every element of the right list has a
related element of the left list. -/
theorem forall2_mem_right {α β : Type} {R : α → β → Prop} :
    ∀ {l₁ : List α} {l₂ : List β}, List.Forall₂ R l₁ l₂ → ∀ {b}, b ∈ l₂ → ∃ a ∈ l₁, R a b := by
  intro l₁ l₂ h
  induction h with
  | nil => intro b hb; cases hb
  | cons hrel _ ih =>
      intro b hb
      rcases List.mem_cons.mp hb with h | h
      · subst h; exact ⟨_, List.mem_cons_self .., hrel⟩
      · obtain ⟨a, ha, hab⟩ := ih h
        exact ⟨a, List.mem_cons_of_mem _ ha, hab⟩

/-- C7: with the resolved metric/date fields, `plot_metric_vs_time` builds
exactly one candidate point per record (dropped exactly when the date is
null/absent or the metric stays NaN), returns an `{error}` result exactly
when the surviving series is empty, and otherwise returns a chart whose
`data` is a permutation of the surviving points sorted ascending by the host
date timestamp; every surviving point is a `{date, label, value, title}`
record with a non-null date. -/
theorem c7_plot_metric_vs_time (host : HostFns) (args : JVal) (videos : List JVal)
    (mf df : JVal) (pts : List (Option JVal)) (av : String) (r : JVal)
    (hne : (videos.length == 0) = false)
    (hfields : plotFields args videos = .ok (mf, df))
    (hpts : mapMP (plotPointOf host mf df) videos = .ok pts)
    (hav : availableMsg videos = .ok av)
    (hexec : executeJsonTool host "plot_metric_vs_time" args videos = .ok r) :
    pts.length = videos.length ∧
    List.Forall₂ (fun v p => plotPointOf host mf df v = .ok p) videos pts ∧
    (pts.filterMap id = [] →
      r = .obj [("error", .str ("Could not plot. Metric: \"" ++ jsToString mf ++
        "\", date: \"" ++ jsToString df ++ "\". Available: " ++ av))]) ∧
    (pts.filterMap id ≠ [] →
      r = .obj [("_chartType", .str "metricVsTime"),
        ("data", .arr (List.insertionSort (dateLe host) (pts.filterMap id))),
        ("metricField", mf), ("dateField", df)] ∧
      (List.insertionSort (dateLe host) (pts.filterMap id)).Perm (pts.filterMap id) ∧
      List.Sorted (dateLe host) (List.insertionSort (dateLe host) (pts.filterMap id))) ∧
    (∀ p ∈ pts.filterMap id, ∃ dv mv t, isNullish dv = false ∧
      p = .obj [("date", dv), ("label", .str (host.dateLabel dv)), ("value", .num mv),
        ("title", t)]) := by
  have hfa := mapMP_ok_forall2 (plotPointOf host mf df) videos pts hpts
  rw [executeJsonTool_plot_eq host args videos hne] at hexec
  unfold plotMetricVsTime at hexec
  simp only [bind, Except.bind] at hexec
  rw [hfields] at hexec
  dsimp only at hexec
  rw [hpts] at hexec
  dsimp only at hexec
  refine ⟨hfa.length_eq.symm, hfa, ?_, ?_, ?_⟩
  · intro hempty
    rw [hempty] at hexec
    simp only [List.insertionSort, List.length_nil, Nat.zero_eq] at hexec
    rw [hav] at hexec
    rw [if_pos (by decide)] at hexec
    simp only [pure, Except.pure, Except.ok.injEq] at hexec
    exact hexec.symm
  · intro hne2
    have hlen : ((List.insertionSort (dateLe host) (pts.filterMap id)).length == 0) = false := by
      have := (List.perm_insertionSort (dateLe host) (pts.filterMap id)).length_eq
      have h0 : pts.filterMap id ≠ [] := hne2
      simp only [beq_eq_false_iff_ne]
      rw [this]
      intro hc
      exact h0 (List.length_eq_zero.mp hc)
    rw [if_neg (by simp only [hlen]; exact fun hc => by simp at hc)] at hexec
    simp only [pure, Except.pure, Except.ok.injEq] at hexec
    exact ⟨hexec.symm, List.perm_insertionSort _ _, List.sorted_insertionSort _ _⟩
  · intro p hp
    rw [List.mem_filterMap] at hp
    obtain ⟨op, hop, hid⟩ := hp
    simp only [id] at hid
    subst hid
    obtain ⟨v, _, hvp⟩ := forall2_mem_right hfa hop
    obtain ⟨dv, mv, t, _, hnn, hshape⟩ := plotPointOf_some_shape host mf df v p hvp
    exact ⟨dv, mv, t, hnn, hshape⟩

/-- Host fixture for the C7 witness: the two dates get timestamps 1 and 2,
every label renders as "L". -/
def hostW : HostFns :=
  ⟨fun v => match v with
    | .str "2020-01-01" => 1
    | .str "2020-02-01" => 2
    | _ => 0,
   fun _ => "L", fun _ => 0⟩

/-- Arguments fixture for the C7 witness. -/
def argsW : JVal :=
  .obj [("metric_field", .str "view_count"), ("date_field", .str "release_date")]

/-- Two-record fixture for the C7 witness; the records arrive in descending
date order so the sort visibly reorders them. -/
def vidsW : List JVal :=
  [.obj [("title", .str "A"), ("view_count", .num 10), ("release_date", .str "2020-02-01")],
   .obj [("title", .str "B"), ("view_count", .num 20), ("release_date", .str "2020-01-01")]]

/-- A concrete chart point of the C7 witness. -/
def ptW (title date : String) (value : ℚ) : JVal :=
  .obj [("date", .str date), ("label", .str "L"), ("value", .num value), ("title", .str title)]

/-- The per-record candidate points of the C7 witness. -/
def ptsW : List (Option JVal) :=
  [some (ptW "A" "2020-02-01" 10), some (ptW "B" "2020-01-01" 20)]

/-- The chart result of the C7 witness: both points survive, sorted
ascending by date (record B first). -/
def chartW : JVal :=
  .obj [("_chartType", .str "metricVsTime"),
    ("data", .arr [ptW "B" "2020-01-01" 20, ptW "A" "2020-02-01" 10]),
    ("metricField", .str "view_count"), ("dateField", .str "release_date")]

/-- C7 witness: on the concrete two-record fixture every hypothesis of the
C7 theorem evaluates as required and the theorem applies. -/
theorem c7_plot_metric_vs_time_witness :
    (vidsW.length == 0) = false ∧
    plotFields argsW vidsW = .ok (.str "view_count", .str "release_date") ∧
    mapMP (plotPointOf hostW (.str "view_count") (.str "release_date")) vidsW = .ok ptsW ∧
    availableMsg vidsW = .ok "title, view_count, release_date" ∧
    executeJsonTool hostW "plot_metric_vs_time" argsW vidsW = .ok chartW ∧
    (ptsW.length = vidsW.length ∧
     List.Forall₂ (fun v p => plotPointOf hostW (.str "view_count") (.str "release_date") v = .ok p)
       vidsW ptsW ∧
     (ptsW.filterMap id = [] →
       chartW = .obj [("error", .str ("Could not plot. Metric: \"" ++
         jsToString (.str "view_count") ++ "\", date: \"" ++ jsToString (.str "release_date") ++
         "\". Available: " ++ "title, view_count, release_date"))]) ∧
     (ptsW.filterMap id ≠ [] →
       chartW = .obj [("_chartType", .str "metricVsTime"),
         ("data", .arr (List.insertionSort (dateLe hostW) (ptsW.filterMap id))),
         ("metricField", .str "view_count"), ("dateField", .str "release_date")] ∧
       (List.insertionSort (dateLe hostW) (ptsW.filterMap id)).Perm (ptsW.filterMap id) ∧
       List.Sorted (dateLe hostW) (List.insertionSort (dateLe hostW) (ptsW.filterMap id))) ∧
     (∀ p ∈ ptsW.filterMap id, ∃ dv mv t, isNullish dv = false ∧
       p = .obj [("date", dv), ("label", .str (hostW.dateLabel dv)), ("value", .num mv),
         ("title", t)])) :=
  have h1 : (vidsW.length == 0) = false := by decide
  have h2 : plotFields argsW vidsW = .ok (.str "view_count", .str "release_date") := by
    with_unfolding_all rfl
  have h3 : mapMP (plotPointOf hostW (.str "view_count") (.str "release_date")) vidsW =
      .ok ptsW := by with_unfolding_all rfl
  have h4 : availableMsg vidsW = .ok "title, view_count, release_date" := by
    with_unfolding_all rfl
  have h5 : executeJsonTool hostW "plot_metric_vs_time" argsW vidsW = .ok chartW := by
    with_unfolding_all rfl
  ⟨h1, h2, h3, h4, h5,
    c7_plot_metric_vs_time hostW argsW vidsW (.str "view_count") (.str "release_date")
      ptsW "title, view_count, release_date" chartW h1 h2 h3 h4 h5⟩

/-! ## C9 — bulk CSV transport round-trip -/

/-- `b64Index` inverts `b64Char` on the 64 alphabet values. -/
theorem b64Index_b64Char : ∀ n : Nat, n < 64 → b64Index (b64Char n) = n := by decide

/-- No alphabet character is the padding character. -/
theorem b64Char_ne_pad : ∀ n : Nat, n < 64 → (b64Char n == Char.ofNat 61) = false := by decide

/-- `atob` inverts `btoa` on byte sequences. -/
theorem atob_btoa : ∀ bs : List Nat, (∀ b ∈ bs, b < 256) → atobBytes (btoaBytes bs) = bs
  | [] => fun _ => rfl
  | [b1] => fun h => by
      have hb1 : b1 < 256 := h b1 (by simp)
      have e1 := b64Index_b64Char (b1 / 4) (by omega)
      have e2 := b64Index_b64Char (b1 % 4 * 16) (by omega)
      simp only [btoaBytes, atobBytes, beq_self_eq_true, if_true, e1, e2]
      simp only [List.cons.injEq, and_true]
      omega
  | [b1, b2] => fun h => by
      have hb1 : b1 < 256 := h b1 (by simp)
      have hb2 : b2 < 256 := h b2 (by simp)
      have e1 := b64Index_b64Char (b1 / 4) (by omega)
      have e2 := b64Index_b64Char (b1 % 4 * 16 + b2 / 16) (by omega)
      have e3 := b64Index_b64Char (b2 % 16 * 4) (by omega)
      have ne3 : (b64Char (b2 % 16 * 4) == Char.ofNat 61) = false :=
        b64Char_ne_pad (b2 % 16 * 4) (by omega)
      simp only [btoaBytes, atobBytes, ne3, Bool.false_eq_true, if_false,
        beq_self_eq_true, if_true, e1, e2, e3]
      simp only [List.cons.injEq, and_true]
      exact ⟨by omega, by omega⟩
  | (b1 :: b2 :: b3 :: rest) => fun h => by
      have hb1 : b1 < 256 := h b1 (by simp)
      have hb2 : b2 < 256 := h b2 (by simp)
      have hb3 : b3 < 256 := h b3 (by simp)
      have ih := atob_btoa rest (fun b hb => h b (by simp [hb]))
      have e1 := b64Index_b64Char (b1 / 4) (by omega)
      have e2 := b64Index_b64Char (b1 % 4 * 16 + b2 / 16) (by omega)
      have e3 := b64Index_b64Char (b2 % 16 * 4 + b3 / 64) (by omega)
      have e4 := b64Index_b64Char (b3 % 64) (by omega)
      have ne3 : (b64Char (b2 % 16 * 4 + b3 / 64) == Char.ofNat 61) = false :=
        b64Char_ne_pad (b2 % 16 * 4 + b3 / 64) (by omega)
      have ne4 : (b64Char (b3 % 64) == Char.ofNat 61) = false :=
        b64Char_ne_pad (b3 % 64) (by omega)
      simp only [btoaBytes, atobBytes, ne3, ne4, Bool.false_eq_true, if_false,
        e1, e2, e3, e4, ih]
      simp only [List.cons.injEq, and_true]
      exact ⟨by omega, by omega, by omega⟩

/-- The scalar value of a character, bounded by the Unicode range. -/
theorem char_toNat_lt (c : Char) : c.toNat < 1114112 := by
  have hv : c.toNat < 55296 ∨ (57344 ≤ c.toNat ∧ c.toNat < 1114112) := c.valid
  omega

/-- Every byte `utf8EncodeChar` emits is a byte. -/
theorem utf8EncodeChar_lt (c : Char) : ∀ b ∈ utf8EncodeChar c, b < 256 := by
  have hlt := char_toNat_lt c
  intro b hb
  have hch : utf8EncodeChar c =
      (if c.toNat < 128 then [c.toNat]
       else if c.toNat < 2048 then [192 + c.toNat / 64, 128 + c.toNat % 64]
       else if c.toNat < 65536 then
         [224 + c.toNat / 4096, 128 + c.toNat / 64 % 64, 128 + c.toNat % 64]
       else [240 + c.toNat / 262144, 128 + c.toNat / 4096 % 64, 128 + c.toNat / 64 % 64,
         128 + c.toNat % 64]) := rfl
  rw [hch] at hb
  split at hb
  · simp at hb; omega
  · split at hb
    · simp at hb; rcases hb with h | h <;> omega
    · split at hb
      · simp at hb; rcases hb with h | h | h <;> omega
      · simp at hb; rcases hb with h | h | h | h <;> omega

/-- Every byte `utf8Encode` emits is a byte. -/
theorem utf8Encode_lt : ∀ cs : List Char, ∀ b ∈ utf8Encode cs, b < 256
  | [] => by intro b hb; cases hb
  | c :: cs => by
      intro b hb
      simp only [utf8Encode, List.mem_append] at hb
      rcases hb with h | h
      · exact utf8EncodeChar_lt c b h
      · exact utf8Encode_lt cs b h

/-- A character encodes to at least one byte. -/
theorem utf8EncodeChar_ne_nil (c : Char) : utf8EncodeChar c ≠ [] := by
  have hch : utf8EncodeChar c =
      (if c.toNat < 128 then [c.toNat]
       else if c.toNat < 2048 then [192 + c.toNat / 64, 128 + c.toNat % 64]
       else if c.toNat < 65536 then
         [224 + c.toNat / 4096, 128 + c.toNat / 64 % 64, 128 + c.toNat % 64]
       else [240 + c.toNat / 262144, 128 + c.toNat / 4096 % 64, 128 + c.toNat / 64 % 64,
         128 + c.toNat % 64]) := rfl
  rw [hch]
  split
  · simp
  · split
    · simp
    · split
      · simp
      · simp

/-- A character sequence encodes to at least as many bytes as characters. -/
theorem length_le_utf8Encode : ∀ cs : List Char, cs.length ≤ (utf8Encode cs).length
  | [] => le_refl 0
  | c :: cs => by
      simp only [utf8Encode, List.length_cons, List.length_append]
      have h1 : 1 ≤ (utf8EncodeChar c).length := by
        cases hc : utf8EncodeChar c with
        | nil => exact absurd hc (utf8EncodeChar_ne_nil c)
        | cons a l => simp
      have h2 := length_le_utf8Encode cs
      omega

/-- Decoding the UTF-8 bytes of one character takes one unit of fuel,
recovers its scalar value, and continues with the remaining bytes. -/
theorem utf8DecodeFuel_encodeChar (fuel : Nat) (c : Char) (bs : List Nat) :
    utf8DecodeFuel (fuel + 1) (utf8EncodeChar c ++ bs) =
      c.toNat :: utf8DecodeFuel fuel bs := by
  have hlt := char_toNat_lt c
  have hch : utf8EncodeChar c =
      (if c.toNat < 128 then [c.toNat]
       else if c.toNat < 2048 then [192 + c.toNat / 64, 128 + c.toNat % 64]
       else if c.toNat < 65536 then
         [224 + c.toNat / 4096, 128 + c.toNat / 64 % 64, 128 + c.toNat % 64]
       else [240 + c.toNat / 262144, 128 + c.toNat / 4096 % 64, 128 + c.toNat / 64 % 64,
         128 + c.toNat % 64]) := rfl
  rw [hch]
  by_cases h1 : c.toNat < 128
  · rw [if_pos h1]
    simp only [List.cons_append, List.nil_append, utf8DecodeFuel]
    rw [if_pos h1]
  · rw [if_neg h1]
    by_cases h2 : c.toNat < 2048
    · rw [if_pos h2]
      simp only [List.cons_append, List.nil_append, utf8DecodeFuel]
      rw [if_neg (by omega), if_pos (by omega)]
      simp only [List.cons.injEq, and_true]
      omega
    · rw [if_neg h2]
      by_cases h3 : c.toNat < 65536
      · rw [if_pos h3]
        simp only [List.cons_append, List.nil_append, utf8DecodeFuel]
        rw [if_neg (by omega), if_neg (by omega), if_pos (by omega)]
        simp only [List.cons.injEq, and_true]
        omega
      · rw [if_neg h3]
        simp only [List.cons_append, List.nil_append, utf8DecodeFuel]
        rw [if_neg (by omega), if_neg (by omega), if_neg (by omega)]
        simp only [List.cons.injEq, and_true]
        omega

/-- With enough fuel, decoding the UTF-8 encoding of a character sequence
recovers the scalar values. -/
theorem utf8DecodeFuel_encode : ∀ (cs : List Char) (fuel : Nat), cs.length ≤ fuel →
    utf8DecodeFuel fuel (utf8Encode cs) = cs.map Char.toNat
  | [], 0, _ => rfl
  | [], fuel + 1, _ => rfl
  | c :: cs, fuel + 1, h => by
      simp only [utf8Encode, List.map_cons]
      rw [utf8DecodeFuel_encodeChar fuel c (utf8Encode cs),
        utf8DecodeFuel_encode cs fuel (by simp only [List.length_cons] at h; omega)]

/-- Decoding the UTF-8 encoding of a character sequence recovers the scalar
values. -/
theorem utf8Decode_encode (cs : List Char) :
    utf8Decode (utf8Encode cs) = cs.map Char.toNat :=
  utf8DecodeFuel_encode cs (utf8Encode cs).length (length_le_utf8Encode cs)

/-- Rebuilding characters from their scalar values is the identity. -/
theorem map_ofNat_toNat : ∀ l : List Char, (l.map Char.toNat).map Char.ofNat = l
  | [] => rfl
  | c :: l => by
      simp only [List.map_cons, Char.ofNat_toNat]
      rw [map_ofNat_toNat l]

/-- Full decode recipe: UTF-8-decoding the base64-decoding of `toBase64 cs`
reconstructs exactly the characters `cs`. -/
theorem decode_toBase64 (cs : List Char) :
    (utf8Decode (atobBytes (toBase64 cs).data)).map Char.ofNat = cs := by
  show (utf8Decode (atobBytes (btoaBytes (utf8Encode cs)))).map Char.ofNat = cs
  rw [atob_btoa _ (utf8Encode_lt cs), utf8Decode_encode, map_ofNat_toNat]

/-- C9: for every CSV text with at least one non-blank line, `parseCSV`
succeeds; the base64 payload encodes exactly the first 500000 characters of
the text (all of it when it is no longer than 500000), the `truncated` flag
is set exactly when the text is longer than 500000 characters, and applying
the decode recipe (base64, then UTF-8) to the payload reconstructs exactly
the encoded characters. -/
theorem c9_csv_roundtrip (T : String)
    (hnb : ((splitOn '\n' T.data).filter (fun l => !(trimL l).isEmpty)) ≠ []) :
    ∃ r : ParsedCsv, parseCSV T = some r ∧
      r.base64 = toBase64 (T.data.take 500000) ∧
      r.truncated = decide (T.length > 500000) ∧
      (utf8Decode (atobBytes r.base64.data)).map Char.ofNat = T.data.take 500000 ∧
      (T.length ≤ 500000 → T.data.take 500000 = T.data) := by
  have hraw : (if T.length > 500000 then T.data.take 500000 else T.data) =
      T.data.take 500000 := by
    split
    · rfl
    · rename_i h
      have hTd : T.data.length = T.length := rfl
      exact (List.take_of_length_le (by omega)).symm
  have hle : ((splitOn '\n' T.data).filter
      (fun l => !(trimL l).isEmpty)).isEmpty = false := by
    rw [List.isEmpty_eq_false]
    exact hnb
  unfold parseCSV
  simp only [hle, Bool.false_eq_true, if_false]
  refine ⟨_, rfl, ?_, rfl, ?_, ?_⟩
  · rw [hraw]
  · rw [hraw]
    exact decode_toBase64 (T.data.take 500000)
  · intro h
    have hTd : T.data.length = T.length := rfl
    exact List.take_of_length_le (by omega)

/-- C9 witness: the round-trip instantiated on the two-line CSV text
"a,b\n1,2". -/
theorem c9_csv_roundtrip_witness :
    ((splitOn '\n' (String.data "a,b\n1,2")).filter
      (fun l => !(trimL l).isEmpty)) ≠ [] ∧
    (∃ r : ParsedCsv, parseCSV "a,b\n1,2" = some r ∧
      r.base64 = toBase64 ((String.data "a,b\n1,2").take 500000) ∧
      r.truncated = decide (String.length "a,b\n1,2" > 500000) ∧
      (utf8Decode (atobBytes r.base64.data)).map Char.ofNat =
        (String.data "a,b\n1,2").take 500000 ∧
      (String.length "a,b\n1,2" ≤ 500000 →
        (String.data "a,b\n1,2").take 500000 = String.data "a,b\n1,2")) :=
  ⟨by decide, c9_csv_roundtrip "a,b\n1,2" (by decide)⟩

end MIO
